import Mathlib

/-!
Verification model of the WebGL math backend
(`src/math/backends/backend_webgl.ts`): the residency records (`texData`),
the texture-manager pool, the compiled-binary cache, the dispose flag, and
the multi-pass reduction drivers.  TypeScript objects are modelled as
association lists so that every definition is executable and states have
decidable equality.  Host buffers are modelled as lists of integers
(exact values; the claims under study are about residency, caching and
index/sum bookkeeping, not floating-point rounding).
-/

set_option maxRecDepth 8000

/-- Association-list lookup, the model of `obj[key]` / `key in obj` on a
TypeScript object used as a dictionary. -/
def assocGet {κ : Type} [DecidableEq κ] {α : Type} : List (κ × α) → κ → Option α
  | [], _ => none
  | (k, v) :: rest, key => if k = key then some v else assocGet rest key

/-- Association-list update, the model of `obj[key] = v` (replaces the
binding if present, appends it otherwise). -/
def assocSet {κ : Type} [DecidableEq κ] {α : Type} :
    List (κ × α) → κ → α → List (κ × α)
  | [], key, v => [(key, v)]
  | (k, w) :: rest, key, v =>
      if k = key then (key, v) :: rest else (k, w) :: assocSet rest key v

/-- Association-list deletion, the model of `delete obj[key]`. -/
def assocErase {κ : Type} [DecidableEq κ] {α : Type} :
    List (κ × α) → κ → List (κ × α)
  | [], _ => []
  | (k, w) :: rest, key =>
      if k = key then rest else (k, w) :: assocErase rest key

theorem assocGet_assocSet_self {κ : Type} [DecidableEq κ] {α : Type}
    (m : List (κ × α)) (k : κ) (v : α) : assocGet (assocSet m k v) k = some v := by
  induction m with
  | nil => simp [assocSet, assocGet]
  | cons p rest ih =>
      obtain ⟨k', w⟩ := p
      by_cases h : k' = k <;> simp [assocSet, assocGet, h, ih]

theorem assocGet_assocSet_ne {κ : Type} [DecidableEq κ] {α : Type}
    (m : List (κ × α)) (k k' : κ) (v : α) (h : k ≠ k') :
    assocGet (assocSet m k v) k' = assocGet m k' := by
  induction m with
  | nil => simp [assocSet, assocGet, h]
  | cons p rest ih =>
      obtain ⟨k'', w⟩ := p
      by_cases h2 : k'' = k
      · subst h2
        simp [assocSet, assocGet, h]
      · simp [assocSet, assocGet, h2, ih]

theorem assocGet_assocErase_self {κ : Type} [DecidableEq κ] {α : Type}
    (m : List (κ × α)) (k : κ)
    (hnodup : (m.map Prod.fst).Nodup) :
    assocGet (assocErase m k) k = none := by
  induction m with
  | nil => simp [assocErase, assocGet]
  | cons p rest ih =>
      obtain ⟨k', w⟩ := p
      simp only [List.map_cons, List.nodup_cons] at hnodup
      by_cases h : k' = k
      · subst h
        simp only [assocErase, if_pos rfl]
        -- k' no longer occurs in rest, so the lookup misses
        clear ih
        induction rest with
        | nil => simp [assocGet]
        | cons q rest2 ih2 =>
            obtain ⟨k2, w2⟩ := q
            simp only [List.map_cons, List.mem_cons, List.nodup_cons] at hnodup
            have hk2 : k2 ≠ k' := fun h => hnodup.1 (by simp [h])
            simp only [assocGet, if_neg hk2]
            exact ih2 ⟨fun hm => hnodup.1 (Or.inr hm), hnodup.2.2⟩
      · simp only [assocErase, if_neg h, assocGet, if_neg h]
        exact ih hnodup.2

theorem assocGet_isSome_of_assocSet {κ : Type} [DecidableEq κ] {α : Type}
    (m : List (κ × α)) (k k' : κ) (v : α)
    (h : (assocGet m k').isSome) : (assocGet (assocSet m k v) k').isSome := by
  by_cases he : k = k'
  · subst he; simp [assocGet_assocSet_self]
  · rwa [assocGet_assocSet_ne m k k' v he]

/-- `all`-style predicate transport through `assocSet`. -/
theorem all_assocSet {κ : Type} [DecidableEq κ] {α : Type}
    (m : List (κ × α)) (k : κ) (v : α) (p : κ × α → Bool)
    (hm : m.all p = true) (hv : p (k, v) = true) :
    (assocSet m k v).all p = true := by
  induction m with
  | nil => simp [assocSet, hv]
  | cons q rest ih =>
      obtain ⟨k', w⟩ := q
      simp only [List.all_cons, Bool.and_eq_true] at hm
      by_cases h : k' = k
      · simp [assocSet, h, hv, hm.2]
      · simp only [assocSet, if_neg h, List.all_cons, Bool.and_eq_true]
        exact ⟨hm.1, ih hm.2⟩

/-- `all`-style predicate transport through `assocErase`. -/
theorem all_assocErase {κ : Type} [DecidableEq κ] {α : Type}
    (m : List (κ × α)) (k : κ) (p : κ × α → Bool)
    (hm : m.all p = true) : (assocErase m k).all p = true := by
  induction m with
  | nil => simp [assocErase]
  | cons q rest ih =>
      obtain ⟨k', w⟩ := q
      simp only [List.all_cons, Bool.and_eq_true] at hm
      by_cases h : k' = k
      · simp [assocErase, h, hm.2]
      · simp only [assocErase, if_neg h, List.all_cons, Bool.and_eq_true]
        exact ⟨hm.1, ih hm.2⟩

theorem all_of_assocGet {κ : Type} [DecidableEq κ] {α : Type}
    (m : List (κ × α)) (k : κ) (v : α) (p : κ × α → Bool)
    (hm : m.all p = true) (h : assocGet m k = some v) : p (k, v) = true := by
  induction m with
  | nil => simp [assocGet] at h
  | cons q rest ih =>
      obtain ⟨k', w⟩ := q
      simp only [List.all_cons, Bool.and_eq_true] at hm
      simp only [assocGet] at h
      split at h
      · next he =>
          subst he
          injection h with h
          subst h
          exact hm.1
      · exact ih hm.2 h

instance {ε α : Type} [DecidableEq ε] [DecidableEq α] :
    DecidableEq (Except ε α) := fun x y =>
  match x, y with
  | .ok a, .ok b =>
      if h : a = b then .isTrue (by rw [h])
      else .isFalse (fun hc => h (by injection hc))
  | .error e, .error f =>
      if h : e = f then .isTrue (by rw [h])
      else .isFalse (fun hc => h (by injection hc))
  | .ok _, .error _ => .isFalse (fun hc => Except.noConfusion hc)
  | .error _, .ok _ => .isFalse (fun hc => Except.noConfusion hc)

/-- Element encoding of an array (`DataType` in the source): floating
point, 32-bit integer or boolean. -/
inductive DType
  | float32
  | int32
  | boolT
deriving DecidableEq

/-- Numeric width used by the upcast table (bool below int32 below float32). -/
def DType.width : DType → Nat
  | .boolT => 0
  | .int32 => 1
  | .float32 => 2

/-- Modelled from the spec: `types.upcastType` (`src/math/types.ts`, not
under `src/`): the fixed upcast table — mixing a narrower and a wider
numeric kind yields the wider kind. -/
def upcastType (a b : DType) : DType :=
  if a.width ≤ b.width then b else a

/-- Storage kind of a device texture (`TextureType` in
`webgl/tex_util.ts`); only the two kinds used by the dispatcher. -/
inductive TextureType
  | FLOAT
  | UNSIGNED_BYTE
deriving DecidableEq

/-- Residency record of one array handle, the `TextureData` stored in
`MathBackendWebGL.texData` (`backend_webgl.ts`, `register`). -/
structure TextureData where
  shape : List Nat
  dtype : DType
  values : Option (List Int)
  texture : Option Nat
  texShape : Option (Nat × Nat)
  texType : TextureType
deriving DecidableEq

/-- Pool state of `TextureManager` (`webgl/texture_manager.ts`): free
texture ids keyed by (texture shape, storage kind), a counter issuing
fresh texture ids, and bookkeeping counters for acquisitions and real
allocations. -/
structure TextureManager where
  pool : List ((Option (Nat × Nat) × TextureType) × List Nat)
  nextTex : Nat
  numAcquires : Nat
  numAllocs : Nat
  disposed : Bool
deriving DecidableEq

/-- `TextureManager.acquireTexture`: reuse a pooled free texture of the
exact (shape, kind) if one exists, otherwise allocate a fresh one. -/
def acquireTexture (tm : TextureManager) (shape : Nat × Nat) (tt : TextureType) :
    Nat × TextureManager :=
  match assocGet tm.pool (some shape, tt) with
  | some (t :: rest) =>
      (t, { tm with pool := assocSet tm.pool (some shape, tt) rest,
                    numAcquires := tm.numAcquires + 1 })
  | _ =>
      (tm.nextTex, { tm with nextTex := tm.nextTex + 1,
                             numAcquires := tm.numAcquires + 1,
                             numAllocs := tm.numAllocs + 1 })

/-- `TextureManager.releaseTexture`: return a texture to the free pool of
its (shape, kind); the underlying device memory is not freed. -/
def releaseTexture (tm : TextureManager) (t : Nat) (shape : Option (Nat × Nat))
    (tt : TextureType) : TextureManager :=
  { tm with pool :=
      assocSet tm.pool (shape, tt) (t :: (assocGet tm.pool (shape, tt)).getD []) }

/-- State of one `MathBackendWebGL` instance: residency records, the
compiled-binary cache, the texture manager, the device-side contents of
textures (`gpuData`, abstracting `gpgpu` texture memory), the storage
policy and dispose flags.  `nextBinary` doubles as the count of compile
factory invocations; `nextDataId` models the external allocator issuing
fresh handles for outputs created via `makeOutputArray`. -/
structure MathBackendWebGL where
  texData : List (Nat × TextureData)
  binaryCache : List (String × Nat)
  nextBinary : Nat
  textureManager : TextureManager
  gpuData : List (Nat × List Int)
  delayedStorage : Bool
  disposed : Bool
  gpgpuCreatedLocally : Bool
  gpgpuDisposed : Bool
  deletedPrograms : List Nat
  nextDataId : Nat
deriving DecidableEq

namespace MathBackendWebGL

/-- Error message of `throwIfNoData` (`backend_webgl.ts` lines 975-983);
it interpolates the data id. -/
def noDataMsg (dataId : Nat) : String :=
  ("No data found for NDArray with data id ") ++ Nat.repr dataId ++
  (". Use dl.ENV.math instead of constructing your own NDArrayMath. " ++
   "If you need to construct your own math, make sure this array is " ++
   "allocated after the math construction")

/-- Error message of `write` when passed null values. -/
def writeNullMsg : String := "MathBackendWebGL.write(): values can not be null"

/-- Error message of `register` on a duplicate id. -/
def alreadyRegisteredMsg (dataId : Nat) : String :=
  ("data id ") ++ Nat.repr dataId ++ (" already registered")

/-- Modelled from the spec: `webgl_util.getTextureShapeFromLogicalShape`
(not under `src/`) packs a logical shape into a 2-D texture shape; the
claims under study do not depend on the packing, only on it being a
function of the logical shape, so the model flattens to one row. -/
def getTextureShapeFromLogicalShape (shape : List Nat) : Nat × Nat :=
  (1, shape.foldr (· * ·) 1)

/-- `register` (lines 82-94): create a fresh residency record with null
values and no texture; a duplicate id is an error. -/
def register (s : MathBackendWebGL) (dataId : Nat) (shape : List Nat)
    (dtype : DType) : Except String Unit × MathBackendWebGL :=
  if (assocGet s.texData dataId).isSome then
    (.error (alreadyRegisteredMsg dataId), s)
  else
    let td : TextureData :=
      { shape := shape, dtype := dtype, values := none, texture := none,
        texShape := none, texType := .FLOAT }
    (.ok (), { s with texData := assocSet s.texData dataId td })

/-- `uploadToGPU` (lines 985-1005): no-op if a texture is already
attached; otherwise acquire a texture of the packed shape and, if host
values are present, upload them and null the host copy. -/
def uploadToGPU (s : MathBackendWebGL) (dataId : Nat) :
    Except String Unit × MathBackendWebGL :=
  match assocGet s.texData dataId with
  | none => (.error (noDataMsg dataId), s)
  | some td =>
    match td.texture with
    | some _ => (.ok (), s)
    | none =>
      let texShape := getTextureShapeFromLogicalShape td.shape
      let acq := acquireTexture s.textureManager texShape td.texType
      match td.values with
      | some v =>
          let td1 := { td with texShape := some texShape, texture := some acq.1,
                               values := (none : Option (List Int)) }
          (.ok (), { s with texData := assocSet s.texData dataId td1,
                            textureManager := acq.2,
                            gpuData := assocSet s.gpuData acq.1 v })
      | none =>
          let td1 := { td with texShape := some texShape, texture := some acq.1 }
          (.ok (), { s with texData := assocSet s.texData dataId td1,
                            textureManager := acq.2 })

/-- `write` (lines 129-147): null values are an error; otherwise release
any attached texture back to the pool, null texture and texShape, store
the host values, and in eager mode (`delayedStorage = false`) immediately
upload to the GPU. -/
def write (s : MathBackendWebGL) (dataId : Nat) (values : Option (List Int)) :
    Except String Unit × MathBackendWebGL :=
  match values with
  | none => (.error writeNullMsg, s)
  | some v =>
    match assocGet s.texData dataId with
    | none => (.error (noDataMsg dataId), s)
    | some td =>
      let s1 :=
        match td.texture with
        | some tex =>
            let td1 := { td with texture := (none : Option Nat),
                                 texShape := (none : Option (Nat × Nat)),
                                 values := some v }
            { s with
              textureManager :=
                releaseTexture s.textureManager tex td.texShape td.texType,
              texData := assocSet s.texData dataId td1 }
        | none =>
            let td1 := { td with values := some v }
            { s with texData := assocSet s.texData dataId td1 }
      if s1.delayedStorage then (.ok (), s1) else uploadToGPU s1 dataId

/-- `cacheOnCPU` (lines 1007-1021): in delayed-storage mode release the
texture back to the pool and null it; store the downloaded values if
given. -/
def cacheOnCPU (s : MathBackendWebGL) (dataId : Nat)
    (float32Values : Option (List Int)) : MathBackendWebGL :=
  match assocGet s.texData dataId with
  | none => s
  | some td =>
    let step1 : TextureData × MathBackendWebGL :=
      if s.delayedStorage then
        match td.texture with
        | some tex =>
            ({ td with texture := none, texShape := none },
             { s with textureManager :=
                 releaseTexture s.textureManager tex td.texShape td.texType })
        | none => (td, s)
      else (td, s)
    let td2 :=
      match float32Values with
      | some fv => { step1.1 with values := some fv }
      | none => step1.1
    { step1.2 with texData := assocSet step1.2.texData dataId td2 }

/-- Device-memory download, the model of
`gpgpu.downloadMatrixFromTexture`. -/
def downloadTexture (s : MathBackendWebGL) (t : Option Nat) : List Int :=
  match t with
  | some tex => (assocGet s.gpuData tex).getD []
  | none => []

/-- `readSync` (lines 149-160): cached host values are returned directly
(after the cache-policy pass); otherwise download from the texture and
cache on the CPU. -/
def readSync (s : MathBackendWebGL) (dataId : Nat) :
    Except String (List Int) × MathBackendWebGL :=
  match assocGet s.texData dataId with
  | none => (.error (noDataMsg dataId), s)
  | some td =>
    match td.values with
    | some v => (.ok v, cacheOnCPU s dataId none)
    | none =>
      let downloaded := downloadTexture s td.texture
      let s1 := cacheOnCPU s dataId (some downloaded)
      (.ok ((((assocGet s1.texData dataId).map TextureData.values).getD
        none).getD downloaded), s1)

/-- `read` (lines 161-183): same no-data guard; the asynchronous download
path is modelled synchronously (`runQuery` with a no-op has no state
effect), the remaining branches delegate to `readSync`. -/
def read (s : MathBackendWebGL) (dataId : Nat) (asyncExtEnabled : Bool)
    (disjointTimerVersion : Nat) : Except String (List Int) × MathBackendWebGL :=
  match assocGet s.texData dataId with
  | none => (.error (noDataMsg dataId), s)
  | some td =>
    match td.values with
    | some v => (.ok v, cacheOnCPU s dataId none)
    | none =>
      if asyncExtEnabled then
        let downloaded := downloadTexture s td.texture
        let s1 := cacheOnCPU s dataId (some downloaded)
        (.ok ((((assocGet s1.texData dataId).map TextureData.values).getD
          none).getD downloaded), s1)
      else
        -- both the version-0 fallback and the runQuery barrier end in readSync
        let _ := disjointTimerVersion
        readSync s dataId

/-- `disposeData` (lines 242-250): silently ignore unknown ids; otherwise
release any attached texture to the pool and delete the record. -/
def disposeData (s : MathBackendWebGL) (dataId : Nat) : MathBackendWebGL :=
  match assocGet s.texData dataId with
  | none => s
  | some td =>
    let tm :=
      match td.texture with
      | some tex => releaseTexture s.textureManager tex td.texShape td.texType
      | none => s.textureManager
    { s with texData := assocErase s.texData dataId, textureManager := tm }

/-- `getTexture` (lines 252-255): ensure device residency, then return
the attached texture id. -/
def getTexture (s : MathBackendWebGL) (dataId : Nat) :
    Except String Nat × MathBackendWebGL :=
  match uploadToGPU s dataId with
  | (.error e, s1) => (.error e, s1)
  | (.ok _, s1) =>
      (.ok ((((assocGet s1.texData dataId).map TextureData.texture).getD
        none).getD 0), s1)

/-- `getAndSaveBinary` (lines 946-952): compile on a cache miss (the
factory invocation is modelled by consuming `nextBinary` as a fresh
artifact identity), reuse the cached artifact on a hit. -/
def getAndSaveBinary (s : MathBackendWebGL) (key : String) :
    Nat × MathBackendWebGL :=
  match assocGet s.binaryCache key with
  | some b => (b, s)
  | none =>
      (s.nextBinary, { s with
        binaryCache := assocSet s.binaryCache key s.nextBinary,
        nextBinary := s.nextBinary + 1 })

/-- Signature of one operand as it enters the shader key: logical shape,
encoding, packed texture shape. -/
def operandSig (s : MathBackendWebGL) (dataId : Nat) : List Nat :=
  match assocGet s.texData dataId with
  | none => []
  | some td =>
      td.shape ++ [td.dtype.width] ++
        (match td.texShape with
         | some p => [p.1, p.2]
         | none => [])

/-- Modelled from the spec: `gpgpu_math.makeShaderKey` (not under `src/`)
derives the cache key deterministically from the operation kind and the
participating operand and output shapes/encodings. -/
def makeShaderKey (s : MathBackendWebGL) (opKey : String) (inputs : List Nat)
    (outId : Nat) : String :=
  opKey ++ toString (inputs.map (operandSig s)) ++ toString (operandSig s outId)

/-- Residency upload of an operand list, in order, as performed by
`compileAndRun` over its `inputs` (line 919-922); the first missing
record aborts with its no-data error, leaving earlier uploads in place. -/
def uploadAll : List Nat → MathBackendWebGL → Except String Unit × MathBackendWebGL
  | [], s => (.ok (), s)
  | i :: rest, s =>
    match uploadToGPU s i with
    | (.error e, s1) => (.error e, s1)
    | (.ok _, s1) => uploadAll rest s1

/-- `compileAndRun` (lines 912-944): create the output record if none is
supplied (`makeOutputArray`, dtype defaulting to the first input's),
upload every input and the output, resolve the compiled binary through
the cache, and run the program.  Program arithmetic itself lives in the
shader sources outside this repository slice and is modelled at the
reduction-pass level separately, so `runProgram` has no further state
effect here. -/
def compileAndRun (s : MathBackendWebGL) (opKey : String) (inputs : List Nat)
    (outputOpt : Option Nat) (outShape : List Nat) :
    Except String Nat × MathBackendWebGL :=
  let outDtype :=
    ((inputs.head?.bind (assocGet s.texData)).map TextureData.dtype).getD .float32
  let outPair : Nat × MathBackendWebGL :=
    match outputOpt with
    | some o => (o, s)
    | none =>
        let td : TextureData :=
          { shape := outShape, dtype := outDtype, values := none,
            texture := none, texShape := none, texType := .FLOAT }
        (s.nextDataId, { s with
          nextDataId := s.nextDataId + 1,
          texData := assocSet s.texData s.nextDataId td })
  let outId := outPair.1
  match uploadAll inputs outPair.2 with
  | (.error e, s1) => (.error e, s1)
  | (.ok _, s1) =>
    match uploadToGPU s1 outId with
    | (.error e, s2) => (.error e, s2)
    | (.ok _, s2) =>
      let key := makeShaderKey s2 opKey inputs outId
      let got := getAndSaveBinary s2 key
      (.ok outId, got.2)

/-- `clone` (lines 286-297): ensure the source is device resident,
reinterpret its packed texture shape as a 2-D logical shape, allocate the
output via `makeOutputArray`, and run `copy2D` (a `compileAndRun`
dispatch with the explicit destination). -/
def clone (s : MathBackendWebGL) (dataId : Nat) :
    Except String Nat × MathBackendWebGL :=
  match assocGet s.texData dataId with
  | none => (.error (noDataMsg dataId), s)
  | some td =>
    match uploadToGPU s dataId with
    | (.error e, s1) => (.error e, s1)
    | (.ok _, s1) =>
      let tshape :=
        (((assocGet s1.texData dataId).map TextureData.texShape).getD none).getD
          (1, 1)
      let outId := s1.nextDataId
      let outTd : TextureData :=
        { shape := [tshape.1, tshape.2], dtype := td.dtype, values := none,
          texture := none, texShape := none, texType := .FLOAT }
      let s2 := { s1 with
        nextDataId := outId + 1,
        texData := assocSet s1.texData outId outTd }
      compileAndRun s2 ("Copy2D") [dataId] (some outId) [tshape.1, tshape.2]

/-- `dispose` (lines 958-973): guarded by the `disposed` flag; the first
call deletes every cached program, disposes the texture manager and a
locally created device context. -/
def dispose (s : MathBackendWebGL) : MathBackendWebGL :=
  if s.disposed then s
  else
    { s with
      deletedPrograms := s.binaryCache.map Prod.snd,
      textureManager := { s.textureManager with pool := [], disposed := true },
      gpgpuDisposed := s.gpgpuCreatedLocally,
      disposed := true }

end MathBackendWebGL

/-!
Reduction model.  The multi-pass drivers `reduce`, `argReduce`, `sum`,
`argMin`, `argMax` live in `backend_webgl.ts` (lines 479-549); the body of
one pass is a shader (`ReduceProgram` / `ArgMinMaxProgram`, outside this
repository slice) and is modelled from the spec at the level of windows:
a pass cuts the reduced dimension into windows of the chosen size and
emits one partial result per window.  The window-size heuristic
(`reduce_util.computeOptimalWindowSize`) is abstracted as an arbitrary
function subject to the constraints every admissible heuristic satisfies
(a window of at least 2 whenever more than one element remains).
-/

/-- Windows of size `w` covering a row, in order; the last window may be
shorter.  Empty for `w = 0` (never produced by the heuristic). -/
def listChunks {α : Type} (w : Nat) : List α → List (List α)
  | [] => []
  | x :: rest =>
      if _h : w = 0 then []
      else ((x :: rest).take w) :: listChunks w ((x :: rest).drop w)
termination_by xs => xs.length
decreasing_by
  simp only [List.length_drop, List.length_cons]
  omega

/-- Number of windows of size `w` covering `n` elements, defined by the
same recursion as `listChunks`. -/
def numChunks (w : Nat) (n : Nat) : Nat :=
  if w = 0 ∨ n = 0 then 0 else 1 + numChunks w (n - w)
termination_by n
decreasing_by
  push_neg at *
  omega

theorem listChunks_nil {α : Type} (w : Nat) : listChunks w ([] : List α) = [] := by
  simp [listChunks]

theorem listChunks_zero {α : Type} (xs : List α) : listChunks 0 xs = [] := by
  cases xs <;> simp [listChunks]

theorem listChunks_of_ne {α : Type} (w : Nat) (xs : List α) (hw : w ≠ 0)
    (hxs : xs ≠ []) :
    listChunks w xs = xs.take w :: listChunks w (xs.drop w) := by
  cases xs with
  | nil => exact absurd rfl hxs
  | cons x rest =>
      rw [listChunks]
      simp [hw]

theorem numChunks_of_ne (w n : Nat) (hw : w ≠ 0) (hn : n ≠ 0) :
    numChunks w n = 1 + numChunks w (n - w) := by
  rw [numChunks]
  simp [hw, hn]

theorem numChunks_zero (w : Nat) : numChunks w 0 = 0 := by
  rw [numChunks]
  simp

theorem listChunks_length {α : Type} (w : Nat) (xs : List α) (hw : w ≠ 0) :
    (listChunks w xs).length = numChunks w xs.length := by
  generalize hn : xs.length = n
  induction n using Nat.strong_induction_on generalizing xs with
  | _ n ih =>
    by_cases hxs : xs = []
    · subst hxs
      simp only [List.length_nil] at hn
      subst hn
      rw [listChunks_nil, numChunks_zero]
      rfl
    have hx : 0 < xs.length := List.length_pos.mpr hxs
    rw [listChunks_of_ne w xs hw hxs,
        numChunks_of_ne w n hw (by omega)]
    simp only [List.length_cons]
    have hdrop : (xs.drop w).length = n - w := by
      simp [List.length_drop, hn]
    rw [ih (n - w) (by omega) (xs.drop w) hdrop]
    omega

theorem listChunks_flatten {α : Type} (w : Nat) (xs : List α) (hw : w ≠ 0) :
    (listChunks w xs).flatten = xs := by
  generalize hn : xs.length = n
  induction n using Nat.strong_induction_on generalizing xs with
  | _ n ih =>
    by_cases hxs : xs = []
    · subst hxs
      simp [listChunks_nil]
    have hx : 0 < xs.length := List.length_pos.mpr hxs
    rw [listChunks_of_ne w xs hw hxs]
    simp only [List.flatten_cons]
    have hdrop : (xs.drop w).length = n - w := by
      simp [List.length_drop, hn]
    rw [ih (n - w) (by omega) (xs.drop w) hdrop]
    exact List.take_append_drop w xs

theorem ne_nil_of_mem_listChunks {α : Type} (w : Nat) (xs : List α)
    (c : List α) (hc : c ∈ listChunks w xs) : c ≠ [] := by
  generalize hn : xs.length = n
  induction n using Nat.strong_induction_on generalizing xs with
  | _ n ih =>
    by_cases hw : w = 0
    · subst hw
      rw [listChunks_zero] at hc
      simp at hc
    by_cases hxs : xs = []
    · subst hxs
      rw [listChunks_nil] at hc
      simp at hc
    have hx : 0 < xs.length := List.length_pos.mpr hxs
    rw [listChunks_of_ne w xs hw hxs] at hc
    rcases List.mem_cons.mp hc with h | h
    · subst h
      have hlen : (xs.take w).length = min w xs.length := List.length_take w xs
      intro hnil
      rw [hnil] at hlen
      simp only [List.length_nil] at hlen
      omega
    · have hdrop : (xs.drop w).length = n - w := by
        simp [List.length_drop, hn]
      exact ih (n - w) (by omega) (xs.drop w) h hdrop

theorem mem_of_mem_listChunks {α : Type} (w : Nat) (xs : List α)
    (c : List α) (a : α) (hw : w ≠ 0) (hc : c ∈ listChunks w xs) (ha : a ∈ c) :
    a ∈ xs := by
  have hj : a ∈ (listChunks w xs).flatten := List.mem_flatten.mpr ⟨c, hc, ha⟩
  rwa [listChunks_flatten w xs hw] at hj

theorem numChunks_pos (w n : Nat) (hw : 1 ≤ w) (hn : 1 ≤ n) :
    1 ≤ numChunks w n := by
  rw [numChunks_of_ne w n (by omega) (by omega)]
  omega

theorem numChunks_one_of_le (w n : Nat) (hw : 1 ≤ w) (hn1 : 1 ≤ n)
    (hnw : n ≤ w) : numChunks w n = 1 := by
  rw [numChunks_of_ne w n (by omega) (by omega)]
  rw [show n - w = 0 by omega, numChunks_zero]

theorem numChunks_lt (w n : Nat) (hw : 2 ≤ w) (hn : 2 ≤ n) :
    numChunks w n < n := by
  induction n using Nat.strong_induction_on with
  | _ n ih =>
    rw [numChunks_of_ne w n (by omega) (by omega)]
    by_cases hle : n ≤ w
    · rw [show n - w = 0 by omega, numChunks_zero]
      omega
    by_cases h1 : n - w = 1
    · rw [h1, numChunks_of_ne w 1 (by omega) (by omega),
          show 1 - w = 0 by omega, numChunks_zero]
      omega
    · have h2 : 2 ≤ n - w := by omega
      have := ih (n - w) (by omega) h2
      omega

namespace MathBackendWebGL

/-- Modelled from the spec: one pass of `ReduceProgram` on one row —
each window of the chosen size is reduced to its sum, producing the
partially reduced row of `ceil(inSize / windowSize)` elements. -/
def reducePassRow (w : Nat) (xs : List Int) : List Int :=
  (listChunks w xs).map List.sum

/-- `reduce` (lines 479-494): compute the window size from the current
reduced-dimension size, run one pass over every batch row, and recurse
until the reduced dimension collapses to 1.  The fuel argument bounds the
number of passes; `sum` supplies fuel `inSize`, which always suffices. -/
def reduce (ws : Nat → Nat) : Nat → List (List Int) → Nat → List (List Int)
  | 0, x, _ => x
  | fuel + 1, x, inSize =>
    if numChunks (ws inSize) inSize = 1 then x.map (reducePassRow (ws inSize))
    else reduce ws fuel (x.map (reducePassRow (ws inSize)))
      (numChunks (ws inSize) inSize)

/-- `sum` (lines 523-531) after the flattening to `[batch, reduceSize]`:
run the multi-pass reduction driver on the 2-D view. -/
def sum (ws : Nat → Nat) (x : List (List Int)) (inSize : Nat) :
    List (List Int) :=
  reduce ws inSize x inSize

/-- Strict preference of the arg-reduction: for `argMax` a candidate
wins only if its value is strictly greater than the incumbent, for
`argMin` strictly smaller — ties keep the earlier index. -/
def better (isMax : Bool) (a b : Int) : Bool :=
  if isMax then decide (b < a) else decide (a < b)

/-- Value of a row at an index (rows are dense; out-of-range reads never
occur on the guarded paths). -/
def getVal (xs : List Int) (i : Nat) : Int := xs.getD i 0

/-- Left-to-right scan keeping the first-encountered best index. -/
def bestOfAux (isMax : Bool) (xs : List Int) : List Nat → Nat → Nat
  | [], best => best
  | i :: rest, best =>
      bestOfAux isMax xs rest
        (if better isMax (getVal xs i) (getVal xs best) then i else best)

/-- First-encountered best index among a nonempty candidate list. -/
def bestOf (isMax : Bool) (xs : List Int) (cands : List Nat) : Nat :=
  match cands with
  | [] => 0
  | c :: cs => bestOfAux isMax xs cs c

/-- Modelled from the spec: one pass of `ArgMinMaxProgram`
(`webgl/argminmax_gpu.ts`, not under `src/`) — each output element is the
first-encountered best index within its window of candidate indices,
comparing the candidates' values in the original input row; the first
pass (null `bestIndicesA`) uses the absolute input indices as
candidates. -/
def argPass (isMax : Bool) (w : Nat) (xs : List Int) (cands : List Nat) :
    List Nat :=
  (listChunks w cands).map (bestOf isMax xs)

/-- `argReduce` (lines 496-521) on one row: the window size is computed
from the current candidate count (`bestIndicesA.shape[1]`), the original
input `xs` is threaded unchanged into every pass, and recursion stops
when one candidate per row remains. -/
def argReduce (isMax : Bool) (ws : Nat → Nat) :
    Nat → List Int → List Nat → List Nat
  | 0, _, cands => cands
  | fuel + 1, xs, cands =>
    if (argPass isMax (ws cands.length) xs cands).length = 1 then
      argPass isMax (ws cands.length) xs cands
    else argReduce isMax ws fuel xs (argPass isMax (ws cands.length) xs cands)

/-- `argMax` (lines 542-549) on one row of the flattened 2-D view: first
pass over the absolute indices, then recursive passes over the
best-indices array. -/
def argMaxRow (ws : Nat → Nat) (xs : List Int) : List Nat :=
  argReduce true ws xs.length xs (List.range xs.length)

/-- `argMin` (lines 533-540) on one row of the flattened 2-D view. -/
def argMinRow (ws : Nat → Nat) (xs : List Int) : List Nat :=
  argReduce false ws xs.length xs (List.range xs.length)

end MathBackendWebGL

namespace MathBackendWebGL

theorem reducePassRow_sum (w : Nat) (xs : List Int) (hw : w ≠ 0) :
    (reducePassRow w xs).sum = xs.sum := by
  unfold reducePassRow
  rw [← List.sum_flatten, listChunks_flatten w xs hw]

theorem reducePassRow_length (w : Nat) (xs : List Int) (hw : w ≠ 0) :
    (reducePassRow w xs).length = numChunks w xs.length := by
  unfold reducePassRow
  rw [List.length_map, listChunks_length w xs hw]

theorem eq_singleton_sum_of_length_one (l : List Int) (h : l.length = 1) :
    l = [l.sum] := by
  match l, h with
  | [a], _ => simp

/-- Invariant of the multi-pass driver: with any window-size heuristic
that returns at least 2 whenever at least 2 elements remain, enough fuel
collapses every row to the singleton of its exact sum. -/
theorem reduce_correct (ws : Nat → Nat)
    (hws1 : ∀ m, 1 ≤ m → 1 ≤ ws m) (hws2 : ∀ m, 2 ≤ m → 2 ≤ ws m) :
    ∀ fuel inSize x, 1 ≤ inSize → inSize ≤ fuel →
      (∀ r ∈ x, r.length = inSize) →
      reduce ws fuel x inSize = x.map (fun r => [r.sum]) := by
  intro fuel
  induction fuel with
  | zero =>
      intro inSize x h1 h2 _
      omega
  | succ fuel ih =>
    intro inSize x h1 h2 hrows
    have hw1 : 1 ≤ ws inSize := hws1 inSize h1
    simp only [reduce]
    by_cases hcols : numChunks (ws inSize) inSize = 1
    · rw [if_pos hcols]
      apply List.map_congr_left
      intro r hr
      have hlen : (reducePassRow (ws inSize) r).length = 1 := by
        rw [reducePassRow_length _ _ (by omega), hrows r hr, hcols]
      have hsing := eq_singleton_sum_of_length_one _ hlen
      rw [hsing, reducePassRow_sum _ _ (by omega)]
    · rw [if_neg hcols]
      have hin2 : 2 ≤ inSize := by
        rcases Nat.lt_or_ge inSize 2 with hl | hl
        · exfalso
          have h1e : inSize = 1 := by omega
          subst h1e
          exact hcols (numChunks_one_of_le (ws 1) 1 hw1 (by omega) hw1)
        · exact hl
      have hw2 : 2 ≤ ws inSize := hws2 inSize hin2
      have hlt : numChunks (ws inSize) inSize < inSize :=
        numChunks_lt _ _ hw2 hin2
      have hpos : 1 ≤ numChunks (ws inSize) inSize :=
        numChunks_pos _ _ (by omega) (by omega)
      have hrows2 : ∀ r ∈ x.map (reducePassRow (ws inSize)),
          r.length = numChunks (ws inSize) inSize := by
        intro r hr
        obtain ⟨r0, hr0, rfl⟩ := List.mem_map.mp hr
        rw [reducePassRow_length _ _ (by omega), hrows r0 hr0]
      rw [ih (numChunks (ws inSize) inSize) (x.map (reducePassRow (ws inSize)))
            hpos (by omega) hrows2]
      rw [List.map_map]
      apply List.map_congr_left
      intro r hr
      simp only [Function.comp_apply]
      rw [reducePassRow_sum _ _ (by omega)]

end MathBackendWebGL

/-- Example window-size heuristic satisfying the constraints every
admissible heuristic obeys (window of at least 2 while more than one
element remains); used to instantiate the reduction theorems. -/
def wsEx (m : Nat) : Nat := if m ≤ 4 then m else 2

/-- C1: for every 2-D input of shape [batch, reduceSize] with
reduceSize >= 1, the multi-pass reduction driver (`reduce`, called by
`sum`) recurses until the reduced dimension collapses to 1, and the
final sum result equals the exact mathematical per-row sum of the
input, for every window size the heuristic may choose. -/
theorem c1_sum_multipass_correct (ws : Nat → Nat) (x : List (List Int))
    (inSize : Nat) (h1 : 1 ≤ inSize) (hrows : ∀ r ∈ x, r.length = inSize)
    (hws1 : ∀ m, 1 ≤ m → 1 ≤ ws m) (hws2 : ∀ m, 2 ≤ m → 2 ≤ ws m) :
    MathBackendWebGL.sum ws x inSize = x.map (fun r => [r.sum]) :=
  MathBackendWebGL.reduce_correct ws hws1 hws2 inSize inSize x h1
    (le_refl inSize) hrows

/-- Witness for C1 at the spec's [batch=2, reduceSize=7] example. -/
theorem c1_sum_multipass_correct_witness :
    MathBackendWebGL.sum wsEx
      [[1, 2, 3, 4, 5, 6, 7], [10, 20, 30, 40, 50, 60, 70]] 7 =
      [[28], [280]] := by
  rw [c1_sum_multipass_correct wsEx
        [[1, 2, 3, 4, 5, 6, 7], [10, 20, 30, 40, 50, 60, 70]] 7
        (by omega)
        (by intro r hr; fin_cases hr <;> rfl)
        (fun m hm => by unfold wsEx; split <;> omega)
        (fun m hm => by unfold wsEx; split <;> omega)]
  rfl

namespace MathBackendWebGL

/-- The spec's tie-break property: `j` is the lowest index attaining the
extremal value of the row (no element strictly better than `xs[j]`, every
element left of `j` strictly worse). -/
def IsLeastBest (isMax : Bool) (xs : List Int) (j : Nat) : Prop :=
  j < xs.length ∧
  (∀ k, k < xs.length → better isMax (getVal xs k) (getVal xs j) = false) ∧
  (∀ k, k < j → better isMax (getVal xs j) (getVal xs k) = true)

theorem better_irrefl (isMax : Bool) (a : Int) : better isMax a a = false := by
  cases isMax <;> simp [better]

theorem better_asymm (isMax : Bool) (a b : Int)
    (h : better isMax a b = true) : better isMax b a = false := by
  cases isMax <;> simp [better] at * <;> omega

theorem better_false_trans (isMax : Bool) (a b c : Int)
    (h1 : better isMax a b = false) (h2 : better isMax b c = false) :
    better isMax a c = false := by
  cases isMax <;> simp [better] at * <;> omega

/-- Every nonempty row has a lowest extremal index. -/
theorem exists_isLeastBest (isMax : Bool) (xs : List Int) (hne : xs ≠ []) :
    ∃ j, IsLeastBest isMax xs j := by
  induction xs with
  | nil => exact absurd rfl hne
  | cons a rest ih =>
    by_cases hr : rest = []
    · subst hr
      refine ⟨0, by simp, ?_, ?_⟩
      · intro k hk
        have hk0 : k = 0 := by simpa using hk
        subst hk0
        exact better_irrefl isMax _
      · intro k hk
        omega
    · obtain ⟨j', hj'1, hj'2, hj'3⟩ := ih hr
      by_cases hb : better isMax (getVal rest j') (getVal (a :: rest) 0) = true
      · refine ⟨j' + 1, by simp; omega, ?_, ?_⟩
        · intro k hk
          cases k with
          | zero =>
              simp only [getVal, List.getD_cons_zero, List.getD_cons_succ]
              simp only [getVal, List.getD_cons_zero] at hb
              exact better_asymm isMax _ _ hb
          | succ k2 =>
              simp only [getVal, List.getD_cons_succ]
              simp only [List.length_cons] at hk
              exact hj'2 k2 (by omega)
        · intro k hk
          cases k with
          | zero =>
              simp only [getVal, List.getD_cons_zero, List.getD_cons_succ]
              simp only [getVal, List.getD_cons_zero] at hb
              exact hb
          | succ k2 =>
              simp only [getVal, List.getD_cons_succ]
              exact hj'3 k2 (by omega)
      · have hbf : better isMax (getVal rest j') (getVal (a :: rest) 0) = false :=
          Bool.eq_false_iff.mpr hb
        refine ⟨0, by simp, ?_, ?_⟩
        · intro k hk
          cases k with
          | zero => exact better_irrefl isMax _
          | succ k2 =>
              simp only [getVal, List.getD_cons_succ, List.getD_cons_zero]
              simp only [getVal, List.getD_cons_zero] at hbf
              simp only [List.length_cons] at hk
              exact better_false_trans isMax _ _ _ (hj'2 k2 (by omega)) hbf
        · intro k hk
          omega

theorem bestOfAux_mem (isMax : Bool) (xs : List Int) :
    ∀ (cs : List Nat) (b : Nat),
      bestOfAux isMax xs cs b = b ∨ bestOfAux isMax xs cs b ∈ cs := by
  intro cs
  induction cs with
  | nil =>
      intro b
      left
      rfl
  | cons i rest ih =>
      intro b
      simp only [bestOfAux]
      cases hupd : better isMax (getVal xs i) (getVal xs b) with
      | true =>
          simp only [hupd, if_true]
          rcases ih i with h2 | h2
          · right
            rw [h2]
            exact List.mem_cons_self i rest
          · right
            exact List.mem_cons_of_mem i h2
      | false =>
          simp only [hupd, Bool.false_eq_true, if_false]
          rcases ih b with h2 | h2
          · left
            exact h2
          · right
            exact List.mem_cons_of_mem i h2

/-- Core scan lemma: over a strictly ascending candidate list that either
starts at or still contains the lowest extremal index, the
first-encountered-best scan returns exactly that index. -/
theorem bestOfAux_eq (isMax : Bool) (xs : List Int) (j : Nat)
    (hj1 : j < xs.length)
    (hj2 : ∀ k, k < xs.length → better isMax (getVal xs k) (getVal xs j) = false)
    (hj3 : ∀ k, k < j → better isMax (getVal xs j) (getVal xs k) = true) :
    ∀ (cs : List Nat) (b : Nat), cs.Pairwise (· < ·) → (∀ c ∈ cs, b < c) →
      (∀ c ∈ cs, c < xs.length) → b < xs.length → (j = b ∨ j ∈ cs) →
      bestOfAux isMax xs cs b = j := by
  intro cs
  induction cs with
  | nil =>
      intro b _ _ _ _ hj
      rcases hj with h | h
      · simp [bestOfAux, h]
      · simp at h
  | cons i rest ih =>
      intro b hpw hgt hlt hb hj
      have hbi : b < i := hgt i (List.mem_cons_self i rest)
      have hin : i < xs.length := hlt i (List.mem_cons_self i rest)
      have hpw' : rest.Pairwise (· < ·) := (List.pairwise_cons.mp hpw).2
      have hirest : ∀ c ∈ rest, i < c := (List.pairwise_cons.mp hpw).1
      have hltrest : ∀ c ∈ rest, c < xs.length :=
        fun c hc => hlt c (List.mem_cons_of_mem i hc)
      simp only [bestOfAux]
      rcases hj with hjb | hjir
      · subst hjb
        have hfalse : better isMax (getVal xs i) (getVal xs j) = false :=
          hj2 i hin
        simp only [hfalse, Bool.false_eq_true, if_false]
        exact ih j hpw' (fun c hc => lt_trans hbi (hirest c hc)) hltrest hb
          (Or.inl rfl)
      · rcases List.mem_cons.mp hjir with hji | hjr
        · subst hji
          have htrue : better isMax (getVal xs j) (getVal xs b) = true :=
            hj3 b hbi
          simp only [htrue, if_true]
          exact ih j hpw' hirest hltrest hj1 (Or.inl rfl)
        · have hij : i < j := hirest j hjr
          cases hupd : better isMax (getVal xs i) (getVal xs b) with
          | true =>
              simp only [hupd, if_true]
              exact ih i hpw' hirest hltrest hin (Or.inr hjr)
          | false =>
              simp only [hupd, Bool.false_eq_true, if_false]
              exact ih b hpw' (fun c hc => lt_trans hbi (hirest c hc)) hltrest
                hb (Or.inr hjr)

theorem bestOf_mem (isMax : Bool) (xs : List Int) (cands : List Nat)
    (hne : cands ≠ []) : bestOf isMax xs cands ∈ cands := by
  cases cands with
  | nil => exact absurd rfl hne
  | cons c cs =>
      simp only [bestOf]
      rcases bestOfAux_mem isMax xs cs c with h | h
      · rw [h]
        exact List.mem_cons_self c cs
      · exact List.mem_cons_of_mem c h

theorem bestOf_eq (isMax : Bool) (xs : List Int) (j : Nat)
    (hj : IsLeastBest isMax xs j) (cands : List Nat)
    (hpw : cands.Pairwise (· < ·)) (hlt : ∀ c ∈ cands, c < xs.length)
    (hjm : j ∈ cands) : bestOf isMax xs cands = j := by
  obtain ⟨hj1, hj2, hj3⟩ := hj
  cases cands with
  | nil => simp at hjm
  | cons c cs =>
      simp only [bestOf]
      refine bestOfAux_eq isMax xs j hj1 hj2 hj3 cs c
        (List.pairwise_cons.mp hpw).2 (List.pairwise_cons.mp hpw).1
        (fun c' hc' => hlt c' (List.mem_cons_of_mem c hc'))
        (hlt c (List.mem_cons_self c cs)) ?_
      rcases List.mem_cons.mp hjm with h | h
      · exact Or.inl h
      · exact Or.inr h

/-- One arg-reduction pass preserves the driver invariant: the output
candidate list is still strictly ascending, in range, nonempty, and still
contains the lowest extremal index. -/
theorem argPass_inv (isMax : Bool) (xs : List Int) (w : Nat) (hw : w ≠ 0)
    (cands : List Nat) (j : Nat)
    (hpw : cands.Pairwise (· < ·)) (hlt : ∀ c ∈ cands, c < xs.length)
    (hne : cands ≠ []) (hjm : j ∈ cands) (hj : IsLeastBest isMax xs j) :
    (argPass isMax w xs cands).Pairwise (· < ·) ∧
    (∀ c ∈ argPass isMax w xs cands, c < xs.length) ∧
    argPass isMax w xs cands ≠ [] ∧ j ∈ argPass isMax w xs cands := by
  have hpwf : (listChunks w cands).flatten.Pairwise (· < ·) := by
    rw [listChunks_flatten _ _ hw]
    exact hpw
  obtain ⟨hchunks, hcross⟩ := List.pairwise_flatten.mp hpwf
  refine ⟨?_, ?_, ?_, ?_⟩
  · unfold argPass
    rw [List.pairwise_map]
    refine hcross.imp_of_mem ?_
    intro c1 c2 hc1 hc2 hr
    exact hr (bestOf isMax xs c1)
      (bestOf_mem isMax xs c1 (ne_nil_of_mem_listChunks w cands c1 hc1))
      (bestOf isMax xs c2)
      (bestOf_mem isMax xs c2 (ne_nil_of_mem_listChunks w cands c2 hc2))
  · intro c hc
    unfold argPass at hc
    obtain ⟨chunk, hchunk, rfl⟩ := List.mem_map.mp hc
    have hmem := bestOf_mem isMax xs chunk
      (ne_nil_of_mem_listChunks w cands chunk hchunk)
    exact hlt _ (mem_of_mem_listChunks w cands chunk _ hw hchunk hmem)
  · unfold argPass
    have h1 : 1 ≤ cands.length := List.length_pos.mpr hne
    have : (listChunks w cands).length ≥ 1 := by
      rw [listChunks_length _ _ hw]
      exact numChunks_pos _ _ (by omega) h1
    intro hnil
    rw [← List.length_eq_zero] at hnil
    rw [List.length_map] at hnil
    omega
  · have hjf : j ∈ (listChunks w cands).flatten := by
      rw [listChunks_flatten _ _ hw]
      exact hjm
    obtain ⟨chunk, hchunk, hjc⟩ := List.mem_flatten.mp hjf
    unfold argPass
    refine List.mem_map.mpr ⟨chunk, hchunk, ?_⟩
    exact bestOf_eq isMax xs j hj chunk (hchunks chunk hchunk)
      (fun c hc => hlt c (mem_of_mem_listChunks w cands chunk c hw hchunk hc))
      hjc

/-- The multi-pass arg-reduction driver returns the singleton of the
lowest extremal index, for any admissible window-size heuristic. -/
theorem argReduce_eq (isMax : Bool) (ws : Nat → Nat) (xs : List Int) (j : Nat)
    (hj : IsLeastBest isMax xs j)
    (hws1 : ∀ m, 1 ≤ m → 1 ≤ ws m) (hws2 : ∀ m, 2 ≤ m → 2 ≤ ws m) :
    ∀ fuel cands, cands.Pairwise (· < ·) → (∀ c ∈ cands, c < xs.length) →
      cands ≠ [] → j ∈ cands → cands.length ≤ fuel →
      argReduce isMax ws fuel xs cands = [j] := by
  intro fuel
  induction fuel with
  | zero =>
      intro cands _ _ hne _ hle
      have := List.length_pos.mpr hne
      omega
  | succ fuel ih =>
    intro cands hpw hlt hne hjm hle
    have hm1 : 1 ≤ cands.length := List.length_pos.mpr hne
    have hw1 : 1 ≤ ws cands.length := hws1 _ hm1
    obtain ⟨opw, olt, one, ojm⟩ :=
      argPass_inv isMax xs (ws cands.length) (by omega) cands j hpw hlt hne hjm hj
    simp only [argReduce]
    by_cases hlen : (argPass isMax (ws cands.length) xs cands).length = 1
    · rw [if_pos hlen]
      obtain ⟨a, ha⟩ := List.length_eq_one.mp hlen
      rw [ha]
      rw [ha] at ojm
      simp only [List.mem_singleton] at ojm
      rw [ojm]
    · rw [if_neg hlen]
      have holen : (argPass isMax (ws cands.length) xs cands).length =
          numChunks (ws cands.length) cands.length := by
        unfold argPass
        rw [List.length_map, listChunks_length _ _ (by omega)]
      have hm2 : 2 ≤ cands.length := by
        rcases Nat.lt_or_ge cands.length 2 with h | h
        · exfalso
          have he1 : cands.length = 1 := by omega
          have hw1e : 1 ≤ ws 1 := by
            rw [he1] at hw1
            exact hw1
          apply hlen
          rw [holen, he1]
          exact numChunks_one_of_le (ws 1) 1 hw1e (by omega) hw1e
        · exact h
      have hw2 : 2 ≤ ws cands.length := hws2 _ hm2
      have hltlen : numChunks (ws cands.length) cands.length < cands.length :=
        numChunks_lt _ _ hw2 hm2
      exact ih (argPass isMax (ws cands.length) xs cands) opw olt one ojm
        (by rw [holen]; omega)

end MathBackendWebGL

/-- C5: for every input row containing ties for the extremal value,
argMax (and argMin) returns the lowest index among the tied positions,
and this left-to-right precedence is preserved across the multiple
windowed passes of argReduce: the final singleton is the least index `j`
such that no element is strictly better than `xs[j]` and every element
left of `j` is strictly worse. -/
theorem c5_argreduce_lowest_tie_index (isMax : Bool) (ws : Nat → Nat)
    (xs : List Int) (hne : 1 ≤ xs.length)
    (hws1 : ∀ m, 1 ≤ m → 1 ≤ ws m) (hws2 : ∀ m, 2 ≤ m → 2 ≤ ws m) :
    ∃ j,
      (if isMax then MathBackendWebGL.argMaxRow ws xs
       else MathBackendWebGL.argMinRow ws xs) = [j] ∧
      j < xs.length ∧
      (∀ k, k < xs.length →
        MathBackendWebGL.better isMax (MathBackendWebGL.getVal xs k)
          (MathBackendWebGL.getVal xs j) = false) ∧
      (∀ k, k < j →
        MathBackendWebGL.better isMax (MathBackendWebGL.getVal xs j)
          (MathBackendWebGL.getVal xs k) = true) := by
  obtain ⟨j, hj⟩ := MathBackendWebGL.exists_isLeastBest isMax xs
    (List.ne_nil_of_length_pos hne)
  refine ⟨j, ?_, hj.1, hj.2.1, hj.2.2⟩
  have hdriver : MathBackendWebGL.argReduce isMax ws xs.length xs
      (List.range xs.length) = [j] := by
    apply MathBackendWebGL.argReduce_eq isMax ws xs j hj hws1 hws2 xs.length
      (List.range xs.length) (List.pairwise_lt_range _)
      (fun c hc => List.mem_range.mp hc)
      (by
        apply List.ne_nil_of_length_pos
        simpa using hne)
      (List.mem_range.mpr hj.1)
      (by simp)
  cases isMax with
  | true =>
      simpa [MathBackendWebGL.argMaxRow] using hdriver
  | false =>
      simpa [MathBackendWebGL.argMinRow] using hdriver

/-- Witness for C5 at the spec's tie example [3,5,5,1]: argMax returns
index 1 (the lowest index among the tied maxima). -/
theorem c5_argreduce_lowest_tie_index_witness :
    MathBackendWebGL.argMaxRow wsEx [3, 5, 5, 1] = [1] := by
  obtain ⟨j, hif, hlt, hnob, hstrict⟩ :=
    c5_argreduce_lowest_tie_index true wsEx [3, 5, 5, 1]
      (by simp)
      (fun m hm => by unfold wsEx; split <;> omega)
      (fun m hm => by unfold wsEx; split <;> omega)
  simp only [if_true] at hif
  have hlt4 : j < 4 := by simpa using hlt
  interval_cases j
  · exact absurd (hnob 1 (by simp)) (by decide)
  · exact hif
  · exact absurd (hstrict 1 (by omega)) (by decide)
  · exact absurd (hnob 1 (by simp)) (by decide)

namespace MathBackendWebGL

/-- Trace of successive `getAndSaveBinary` calls: the artifacts returned
for each key, and the final backend state. -/
def runKeys (s : MathBackendWebGL) : List String → List Nat × MathBackendWebGL
  | [] => ([], s)
  | k :: ks =>
      ((getAndSaveBinary s k).1 :: (runKeys (getAndSaveBinary s k).2 ks).1,
       (runKeys (getAndSaveBinary s k).2 ks).2)

/-- Number of compile-factory invocations (cache misses) for key `k`
along a call sequence. -/
def factoryCalls (s : MathBackendWebGL) : List String → String → Nat
  | [], _ => 0
  | k' :: rest, k =>
      (if k' = k ∧ (assocGet s.binaryCache k').isNone then 1 else 0) +
        factoryCalls (getAndSaveBinary s k').2 rest k

theorem getAndSaveBinary_preserves (s : MathBackendWebGL) (k k' : String)
    (b : Nat) (h : assocGet s.binaryCache k = some b) :
    assocGet ((getAndSaveBinary s k').2).binaryCache k = some b := by
  unfold getAndSaveBinary
  cases hk' : assocGet s.binaryCache k' with
  | some b' => exact h
  | none =>
      simp only
      by_cases he : k' = k
      · subst he
        rw [hk'] at h
        exact absurd h (by simp)
      · rw [assocGet_assocSet_ne _ _ _ _ he]
        exact h

theorem getAndSaveBinary_cached (s : MathBackendWebGL) (k : String) :
    assocGet ((getAndSaveBinary s k).2).binaryCache k =
      some (getAndSaveBinary s k).1 := by
  unfold getAndSaveBinary
  cases hk : assocGet s.binaryCache k with
  | some b => exact hk
  | none => exact assocGet_assocSet_self _ _ _

theorem runKeys_preserves (ks : List String) :
    ∀ (s : MathBackendWebGL) (k : String) (b : Nat),
      assocGet s.binaryCache k = some b →
      assocGet ((runKeys s ks).2).binaryCache k = some b := by
  induction ks with
  | nil =>
      intro s k b h
      exact h
  | cons k' rest ih =>
      intro s k b h
      exact ih _ k b (getAndSaveBinary_preserves s k k' b h)

theorem runKeys_trace (ks : List String) :
    ∀ (s : MathBackendWebGL) (i : Nat) (k : String) (b : Nat),
      ks[i]? = some k → ((runKeys s ks).1)[i]? = some b →
      assocGet ((runKeys s ks).2).binaryCache k = some b := by
  induction ks with
  | nil =>
      intro s i k b hk _
      simp at hk
  | cons k' rest ih =>
      intro s i k b hk hb
      cases i with
      | zero =>
          simp only [List.getElem?_cons_zero, Option.some.injEq] at hk
          simp only [runKeys, List.getElem?_cons_zero, Option.some.injEq] at hb
          simp only [runKeys]
          rw [← hk, ← hb]
          exact runKeys_preserves rest _ k' _ (getAndSaveBinary_cached s k')
      | succ i2 =>
          simp only [List.getElem?_cons_succ] at hk
          simp only [runKeys, List.getElem?_cons_succ] at hb
          exact ih _ i2 k b hk hb

theorem factoryCalls_zero_of_cached (ks : List String) :
    ∀ (s : MathBackendWebGL) (k : String),
      (assocGet s.binaryCache k).isSome → factoryCalls s ks k = 0 := by
  induction ks with
  | nil =>
      intro s k _
      rfl
  | cons k' rest ih =>
      intro s k hcached
      obtain ⟨b, hb⟩ := Option.isSome_iff_exists.mp hcached
      simp only [factoryCalls]
      have hnext : assocGet ((getAndSaveBinary s k').2).binaryCache k = some b :=
        getAndSaveBinary_preserves s k k' b hb
      rw [ih _ k (by simp [hnext])]
      by_cases he : k' = k
      · subst he
        simp [hb]
      · simp [he]

theorem factoryCalls_le_one (ks : List String) :
    ∀ (s : MathBackendWebGL) (k : String), factoryCalls s ks k ≤ 1 := by
  induction ks with
  | nil =>
      intro s k
      simp [factoryCalls]
  | cons k' rest ih =>
      intro s k
      simp only [factoryCalls]
      by_cases hmiss : k' = k ∧ (assocGet s.binaryCache k').isNone
      · rw [if_pos hmiss]
        obtain ⟨he, _⟩ := hmiss
        subst he
        have hcached := getAndSaveBinary_cached s k'
        rw [factoryCalls_zero_of_cached rest _ k' (by simp [hcached])]
      · rw [if_neg hmiss]
        simpa using ih _ k

end MathBackendWebGL

/-- Concrete backend state with one pre-cached binary, used to
instantiate the cache theorems. -/
def s2w : MathBackendWebGL :=
  { texData := [], binaryCache := [("z", 7)], nextBinary := 8,
    textureManager :=
      { pool := [], nextTex := 0, numAcquires := 0, numAllocs := 0,
        disposed := false },
    gpuData := [], delayedStorage := true, disposed := false,
    gpgpuCreatedLocally := true, gpgpuDisposed := false,
    deletedPrograms := [], nextDataId := 0 }

/-- Concrete key sequence with a repeated key. -/
def ksW : List String := ["a", "b", "a"]

/-- C2: over any sequence of `getAndSaveBinary` invocations, (1) a cached
entry is never invalidated or replaced, (2) any two invocations with an
identical cache key return the identical cached artifact, and (3) the
compile factory is invoked at most once per key. -/
theorem c2_binary_cache_determinism (s : MathBackendWebGL) (ks : List String) :
    (∀ (k : String) (b : Nat), assocGet s.binaryCache k = some b →
       assocGet ((MathBackendWebGL.runKeys s ks).2).binaryCache k = some b) ∧
    (∀ (i j : Nat) (k : String) (bi bj : Nat),
       ks[i]? = some k → ks[j]? = some k →
       ((MathBackendWebGL.runKeys s ks).1)[i]? = some bi →
       ((MathBackendWebGL.runKeys s ks).1)[j]? = some bj → bi = bj) ∧
    (∀ k : String, MathBackendWebGL.factoryCalls s ks k ≤ 1) := by
  refine ⟨?_, ?_, ?_⟩
  · intro k b h
    exact MathBackendWebGL.runKeys_preserves ks s k b h
  · intro i j k bi bj hki hkj hbi hbj
    have h1 := MathBackendWebGL.runKeys_trace ks s i k bi hki hbi
    have h2 := MathBackendWebGL.runKeys_trace ks s j k bj hkj hbj
    rw [h1] at h2
    exact (Option.some.injEq _ _).mp h2
  · intro k
    exact MathBackendWebGL.factoryCalls_le_one ks s k

/-- Witness for C2 on a concrete state and the key sequence
[a, b, a]: the pre-cached entry survives the run and the repeated key
compiles at most once. -/
theorem c2_binary_cache_determinism_witness :
    assocGet ((MathBackendWebGL.runKeys s2w ksW).2).binaryCache ("z") =
      some 7 ∧
    MathBackendWebGL.factoryCalls s2w ksW ("a") ≤ 1 := by
  refine ⟨?_, ?_⟩
  · exact (c2_binary_cache_determinism s2w ksW).1 ("z") 7 (by decide)
  · exact (c2_binary_cache_determinism s2w ksW).2.2 ("a")

namespace MathBackendWebGL

theorem uploadToGPU_noop_of_texture_some (s : MathBackendWebGL) (dataId : Nat)
    (td : TextureData) (h : assocGet s.texData dataId = some td)
    (ht : td.texture.isSome) :
    uploadToGPU s dataId = (Except.ok (), s) := by
  obtain ⟨t, ht⟩ := Option.isSome_iff_exists.mp ht
  simp only [uploadToGPU, h, ht]

/-- After any call on a registered handle, the residency-ensuring path
succeeds and leaves a device texture attached. -/
theorem uploadToGPU_registered (s : MathBackendWebGL) (dataId : Nat)
    (td : TextureData) (h : assocGet s.texData dataId = some td) :
    (uploadToGPU s dataId).1 = Except.ok () ∧
    ∃ td', assocGet ((uploadToGPU s dataId).2).texData dataId = some td' ∧
      td'.texture.isSome := by
  cases htex : td.texture with
  | some t =>
      rw [uploadToGPU_noop_of_texture_some s dataId td h (by simp [htex])]
      exact ⟨rfl, td, h, by simp [htex]⟩
  | none =>
      cases hval : td.values with
      | some v =>
          constructor
          · simp [uploadToGPU, h, htex, hval]
          · simp only [uploadToGPU, h, htex, hval]
            exact ⟨_, assocGet_assocSet_self _ _ _, rfl⟩
      | none =>
          constructor
          · simp [uploadToGPU, h, htex, hval]
          · simp only [uploadToGPU, h, htex, hval]
            exact ⟨_, assocGet_assocSet_self _ _ _, rfl⟩

/-- `disposeData` on an id without a record is a silent no-op. -/
theorem disposeData_noop (s : MathBackendWebGL) (dataId : Nat)
    (h : assocGet s.texData dataId = none) : disposeData s dataId = s := by
  unfold disposeData
  rw [h]

end MathBackendWebGL

/-- C4: for every registered handle, calling the
device-residency-ensuring path (`uploadToGPU`) twice in a row with no
intervening write or dispose performs no texture acquisition and no
state change on the second call: once a device texture is attached, the
second call is a no-op returning the state unchanged. -/
theorem c4_uploadToGPU_idempotent (s : MathBackendWebGL) (dataId : Nat)
    (td : TextureData) (h : assocGet s.texData dataId = some td) :
    MathBackendWebGL.uploadToGPU
        ((MathBackendWebGL.uploadToGPU s dataId).2) dataId =
      (Except.ok (), (MathBackendWebGL.uploadToGPU s dataId).2) := by
  obtain ⟨-, td', hlook, htex⟩ :=
    MathBackendWebGL.uploadToGPU_registered s dataId td h
  exact MathBackendWebGL.uploadToGPU_noop_of_texture_some _ dataId td' hlook htex

/-- Residency record used by concrete upload examples: host-resident
values, no texture attached. -/
def td4w : TextureData :=
  { shape := [3], dtype := .float32, values := some [1, 2, 3],
    texture := none, texShape := none, texType := .FLOAT }

/-- Concrete backend with one host-resident registered handle. -/
def s4w : MathBackendWebGL :=
  { texData := [(1, td4w)], binaryCache := [], nextBinary := 0,
    textureManager :=
      { pool := [], nextTex := 0, numAcquires := 0, numAllocs := 0,
        disposed := false },
    gpuData := [], delayedStorage := true, disposed := false,
    gpgpuCreatedLocally := true, gpgpuDisposed := false,
    deletedPrograms := [], nextDataId := 2 }

/-- Witness for C4 on a concrete host-resident handle. -/
theorem c4_uploadToGPU_idempotent_witness :
    MathBackendWebGL.uploadToGPU
        ((MathBackendWebGL.uploadToGPU s4w 1).2) 1 =
      (Except.ok (), (MathBackendWebGL.uploadToGPU s4w 1).2) :=
  c4_uploadToGPU_idempotent s4w 1 td4w (by decide)

/-- C8: `dispose()` on the backend is idempotent: the first call marks
everything released, every subsequent call is a no-op guarded by the
internal `disposed` flag and changes no state. -/
theorem c8_dispose_idempotent (s : MathBackendWebGL) :
    MathBackendWebGL.dispose (MathBackendWebGL.dispose s) =
      MathBackendWebGL.dispose s ∧
    (MathBackendWebGL.dispose s).disposed = true ∧
    (s.disposed = true → MathBackendWebGL.dispose s = s) := by
  by_cases h : s.disposed <;> simp [MathBackendWebGL.dispose, h]

/-- Concrete already-disposed backend. -/
def s8d : MathBackendWebGL := { s2w with disposed := true }

/-- Witness for C8 on concrete live and disposed states. -/
theorem c8_dispose_idempotent_witness :
    MathBackendWebGL.dispose (MathBackendWebGL.dispose s2w) =
      MathBackendWebGL.dispose s2w ∧
    (MathBackendWebGL.dispose s2w).disposed = true ∧
    MathBackendWebGL.dispose s8d = s8d :=
  ⟨(c8_dispose_idempotent s2w).1, (c8_dispose_idempotent s2w).2.1,
   (c8_dispose_idempotent s8d).2.2 (by decide)⟩

/-- C10: `disposeData` on an unregistered or already-disposed handle is a
silent no-op, hence idempotent; on a registered handle it returns any
attached device texture to the pool and deletes the residency record.
The `Nodup` hypothesis is the representation invariant of a TypeScript
object modelled as an association list (one binding per key). -/
theorem c10_disposeData_idempotent (s : MathBackendWebGL) (dataId : Nat)
    (hkeys : (s.texData.map Prod.fst).Nodup) :
    (assocGet s.texData dataId = none →
       MathBackendWebGL.disposeData s dataId = s) ∧
    MathBackendWebGL.disposeData (MathBackendWebGL.disposeData s dataId) dataId =
      MathBackendWebGL.disposeData s dataId ∧
    (∀ td, assocGet s.texData dataId = some td →
       assocGet ((MathBackendWebGL.disposeData s dataId).texData) dataId = none ∧
       (∀ tex tshape, td.texture = some tex → td.texShape = some tshape →
          tex ∈ (assocGet
            ((MathBackendWebGL.disposeData s dataId).textureManager.pool)
            (some tshape, td.texType)).getD [])) := by
  refine ⟨?_, ?_, ?_⟩
  · intro h
    exact MathBackendWebGL.disposeData_noop s dataId h
  · cases hlook : assocGet s.texData dataId with
    | none =>
        rw [MathBackendWebGL.disposeData_noop s dataId hlook,
            MathBackendWebGL.disposeData_noop s dataId hlook]
    | some td =>
        have herased : assocGet
            ((MathBackendWebGL.disposeData s dataId).texData) dataId = none := by
          simp only [MathBackendWebGL.disposeData, hlook]
          exact assocGet_assocErase_self s.texData dataId hkeys
        exact MathBackendWebGL.disposeData_noop _ dataId herased
  · intro td hlook
    constructor
    · simp only [MathBackendWebGL.disposeData, hlook]
      exact assocGet_assocErase_self s.texData dataId hkeys
    · intro tex tshape htex hts
      simp only [MathBackendWebGL.disposeData, hlook, htex, hts,
        releaseTexture]
      rw [assocGet_assocSet_self]
      simp

/-- Residency record with an attached texture, for disposal examples. -/
def td10 : TextureData :=
  { shape := [3], dtype := .float32, values := none,
    texture := some 5, texShape := some (1, 3), texType := .FLOAT }

/-- Concrete backend with one device-resident registered handle. -/
def s10 : MathBackendWebGL :=
  { texData := [(1, td10)], binaryCache := [], nextBinary := 0,
    textureManager :=
      { pool := [], nextTex := 6, numAcquires := 1, numAllocs := 1,
        disposed := false },
    gpuData := [(5, [1, 2, 3])], delayedStorage := true, disposed := false,
    gpgpuCreatedLocally := true, gpgpuDisposed := false,
    deletedPrograms := [], nextDataId := 2 }

/-- Witness for C10: unknown id is a no-op, disposal is idempotent, the
record is deleted and its texture lands in the pool. -/
theorem c10_disposeData_idempotent_witness :
    MathBackendWebGL.disposeData s10 2 = s10 ∧
    MathBackendWebGL.disposeData (MathBackendWebGL.disposeData s10 1) 1 =
      MathBackendWebGL.disposeData s10 1 ∧
    assocGet ((MathBackendWebGL.disposeData s10 1).texData) 1 = none ∧
    5 ∈ (assocGet ((MathBackendWebGL.disposeData s10 1).textureManager.pool)
      (some (1, 3), TextureType.FLOAT)).getD [] := by
  refine ⟨?_, ?_, ?_, ?_⟩
  · exact (c10_disposeData_idempotent s10 2 (by decide)).1 (by decide)
  · exact (c10_disposeData_idempotent s10 1 (by decide)).2.1
  · exact ((c10_disposeData_idempotent s10 1 (by decide)).2.2 td10 (by decide)).1
  · exact ((c10_disposeData_idempotent s10 1 (by decide)).2.2 td10
      (by decide)).2 5 (1, 3) (by decide) (by decide)

/-- C7 (amended): in delayed-storage mode (the constructor default),
`write` with non-null values releases any attached device texture back to
the pool, nulls the record's texture and device shape, and stores the
host values, leaving the handle host-resident; `write` with null values
throws without modifying anything.  (With `delayedStorage = false` the
code additionally uploads immediately, leaving the handle
device-resident — see the counterexample.) -/
theorem c7_write_delayed_host_resident (s : MathBackendWebGL) (dataId : Nat)
    (v : List Int) (td : TextureData) (hd : s.delayedStorage = true)
    (h : assocGet s.texData dataId = some td) :
    (MathBackendWebGL.write s dataId (some v)).1 = Except.ok () ∧
    (∀ tex tshape, td.texture = some tex → td.texShape = some tshape →
       assocGet ((MathBackendWebGL.write s dataId (some v)).2).texData dataId =
         some { td with texture := none, texShape := none, values := some v } ∧
       tex ∈ (assocGet
         ((MathBackendWebGL.write s dataId (some v)).2).textureManager.pool
         (some tshape, td.texType)).getD []) ∧
    (td.texture = none →
       assocGet ((MathBackendWebGL.write s dataId (some v)).2).texData dataId =
         some { td with values := some v } ∧
       ((MathBackendWebGL.write s dataId (some v)).2).textureManager =
         s.textureManager) ∧
    MathBackendWebGL.write s dataId none =
      (Except.error MathBackendWebGL.writeNullMsg, s) := by
  refine ⟨?_, ?_, ?_, rfl⟩
  · cases htex : td.texture with
    | some tex =>
        cases hts : td.texShape with
        | some tshape => simp [MathBackendWebGL.write, h, htex, hts, hd]
        | none => simp [MathBackendWebGL.write, h, htex, hts, hd]
    | none => simp [MathBackendWebGL.write, h, htex, hd]
  · intro tex tshape htex hts
    constructor
    · simp only [MathBackendWebGL.write, h, htex, hts, hd, if_pos]
      exact assocGet_assocSet_self _ _ _
    · simp only [MathBackendWebGL.write, h, htex, hts, hd, if_pos,
        releaseTexture]
      rw [assocGet_assocSet_self]
      simp
  · intro htex
    constructor
    · simp only [MathBackendWebGL.write, h, htex, hd, if_pos]
      exact assocGet_assocSet_self _ _ _
    · simp [MathBackendWebGL.write, h, htex, hd]

/-- Concrete eager-mode backend (`delayedStorage = false`) with one
registered empty handle. -/
def s7cex : MathBackendWebGL :=
  { texData := [(1,
      { shape := [3], dtype := .float32, values := none, texture := none,
        texShape := none, texType := .FLOAT })],
    binaryCache := [], nextBinary := 0,
    textureManager :=
      { pool := [], nextTex := 0, numAcquires := 0, numAllocs := 0,
        disposed := false },
    gpuData := [], delayedStorage := false, disposed := false,
    gpgpuCreatedLocally := true, gpgpuDisposed := false,
    deletedPrograms := [], nextDataId := 2 }

/-- Counterexample to C7 as stated: in eager mode a successful non-null
`write` does NOT leave the handle host-resident — the stored values are
immediately uploaded and nulled, and a device texture is attached. -/
theorem c7_write_counterexample :
    (MathBackendWebGL.write s7cex 1 (some [1, 2, 3])).1 = Except.ok () ∧
    ((assocGet ((MathBackendWebGL.write s7cex 1 (some [1, 2, 3])).2).texData
        1).map TextureData.values).getD none = none ∧
    ((assocGet ((MathBackendWebGL.write s7cex 1 (some [1, 2, 3])).2).texData
        1).map TextureData.texture).getD none = some 0 := by
  decide

/-- Residency record with an attached texture, for the write witness. -/
def td7w : TextureData :=
  { shape := [3], dtype := .float32, values := none,
    texture := some 5, texShape := some (1, 3), texType := .FLOAT }

/-- Concrete delayed-mode backend with one device-resident handle. -/
def s7w : MathBackendWebGL :=
  { texData := [(1, td7w)], binaryCache := [], nextBinary := 0,
    textureManager :=
      { pool := [], nextTex := 6, numAcquires := 1, numAllocs := 1,
        disposed := false },
    gpuData := [(5, [1, 2, 3])], delayedStorage := true, disposed := false,
    gpgpuCreatedLocally := true, gpgpuDisposed := false,
    deletedPrograms := [], nextDataId := 2 }

/-- Witness for the amended C7 on a concrete device-resident handle. -/
theorem c7_write_delayed_host_resident_witness :
    (MathBackendWebGL.write s7w 1 (some [9, 9, 9])).1 = Except.ok () ∧
    assocGet ((MathBackendWebGL.write s7w 1 (some [9, 9, 9])).2).texData 1 =
      some { td7w with texture := none, texShape := none,
                       values := some [9, 9, 9] } ∧
    5 ∈ (assocGet
      ((MathBackendWebGL.write s7w 1 (some [9, 9, 9])).2).textureManager.pool
      (some (1, 3), TextureType.FLOAT)).getD [] ∧
    MathBackendWebGL.write s7w 1 none =
      (Except.error MathBackendWebGL.writeNullMsg, s7w) := by
  have h := c7_write_delayed_host_resident s7w 1 [9, 9, 9] td7w (by decide)
    (by decide)
  exact ⟨h.1, (h.2.1 5 (1, 3) (by decide) (by decide)).1,
    (h.2.1 5 (1, 3) (by decide) (by decide)).2, h.2.2.2⟩

namespace MathBackendWebGL

/-- Output encoding of `compileAndRun` (line 916-917): the explicitly
supplied output's dtype, else the first input's dtype. -/
def compileAndRunOutDType (inputDtypes : List DType) (explicit : Option DType) :
    DType :=
  match explicit with
  | some d => d
  | none => inputDtypes.headD DType.float32

/-- `add` (lines 652-658): output dtype is the upcast of the operands. -/
def addOutType (a b : DType) : DType :=
  compileAndRunOutDType [a, b] (some (upcastType a b))

/-- `subtract` (lines 660-666): output dtype is the upcast. -/
def subtractOutType (a b : DType) : DType :=
  compileAndRunOutDType [a, b] (some (upcastType a b))

/-- `multiply` (lines 363-369): output dtype is the upcast. -/
def multiplyOutType (a b : DType) : DType :=
  compileAndRunOutDType [a, b] (some (upcastType a b))

/-- `pow` (lines 668-674): output dtype is the upcast. -/
def powOutType (a b : DType) : DType :=
  compileAndRunOutDType [a, b] (some (upcastType a b))

/-- `divide` (lines 646-650): output dtype is always float32. -/
def divideOutType (a b : DType) : DType :=
  compileAndRunOutDType [a, b] (some DType.float32)

/-- `minimum` (lines 627-630): no output array is supplied, so
`compileAndRun` defaults to the FIRST operand's dtype. -/
def minimumOutType (a b : DType) : DType :=
  compileAndRunOutDType [a, b] none

/-- `maximum` (lines 641-644): same default as `minimum`. -/
def maximumOutType (a b : DType) : DType :=
  compileAndRunOutDType [a, b] none

/-- `equal` (lines 551-555): boolean output. -/
def equalOutType (a b : DType) : DType :=
  compileAndRunOutDType [a, b] (some DType.boolT)

/-- `notEqual` (lines 557-562): boolean output. -/
def notEqualOutType (a b : DType) : DType :=
  compileAndRunOutDType [a, b] (some DType.boolT)

/-- `less` (lines 564-568): boolean output. -/
def lessOutType (a b : DType) : DType :=
  compileAndRunOutDType [a, b] (some DType.boolT)

/-- `lessEqual` (lines 570-575): boolean output. -/
def lessEqualOutType (a b : DType) : DType :=
  compileAndRunOutDType [a, b] (some DType.boolT)

/-- `greater` (lines 577-581): boolean output. -/
def greaterOutType (a b : DType) : DType :=
  compileAndRunOutDType [a, b] (some DType.boolT)

/-- `greaterEqual` (lines 583-588): boolean output. -/
def greaterEqualOutType (a b : DType) : DType :=
  compileAndRunOutDType [a, b] (some DType.boolT)

/-- `logicalAnd` (lines 590-595): boolean output. -/
def logicalAndOutType (a b : DType) : DType :=
  compileAndRunOutDType [a, b] (some DType.boolT)

/-- `logicalOr` (lines 597-602): boolean output. -/
def logicalOrOutType (a b : DType) : DType :=
  compileAndRunOutDType [a, b] (some DType.boolT)

end MathBackendWebGL

/-- Counterexample to C6 as stated: `minimum` does not produce the upcast
of the operand encodings — with operands (int32, float32) it produces
int32 (the first operand's dtype, via compileAndRun's default), not the
upcast float32. -/
theorem c6_promotion_counterexample :
    MathBackendWebGL.minimumOutType DType.int32 DType.float32 ≠
      upcastType DType.int32 DType.float32 := by
  decide

/-- C6 (amended): comparison and logical operations always produce a
boolean-encoded output; add, subtract, multiply and pow produce the
upcast of the two operand encodings; divide always produces float32;
minimum and maximum produce the first operand's encoding (compileAndRun's
default when no output array is supplied). -/
theorem c6_binary_output_encoding (a b : DType) :
    MathBackendWebGL.equalOutType a b = DType.boolT ∧
    MathBackendWebGL.notEqualOutType a b = DType.boolT ∧
    MathBackendWebGL.lessOutType a b = DType.boolT ∧
    MathBackendWebGL.lessEqualOutType a b = DType.boolT ∧
    MathBackendWebGL.greaterOutType a b = DType.boolT ∧
    MathBackendWebGL.greaterEqualOutType a b = DType.boolT ∧
    MathBackendWebGL.logicalAndOutType a b = DType.boolT ∧
    MathBackendWebGL.logicalOrOutType a b = DType.boolT ∧
    MathBackendWebGL.addOutType a b = upcastType a b ∧
    MathBackendWebGL.subtractOutType a b = upcastType a b ∧
    MathBackendWebGL.multiplyOutType a b = upcastType a b ∧
    MathBackendWebGL.powOutType a b = upcastType a b ∧
    MathBackendWebGL.divideOutType a b = DType.float32 ∧
    MathBackendWebGL.minimumOutType a b = a ∧
    MathBackendWebGL.maximumOutType a b = a := by
  cases a <;> cases b <;> decide

namespace MathBackendWebGL

/-- `uploadToGPU` on a registered handle never changes which ids are
registered. -/
theorem uploadToGPU_preserves_none (s : MathBackendWebGL) (i : Nat)
    (td : TextureData) (hlook : assocGet s.texData i = some td) (x : Nat) :
    (assocGet ((uploadToGPU s i).2).texData x = none ↔
      assocGet s.texData x = none) := by
  by_cases hx : x = i
  · subst hx
    obtain ⟨-, td', hlook', -⟩ := uploadToGPU_registered s x td hlook
    rw [hlook', hlook]
    simp
  · cases htex : td.texture with
    | some t =>
        rw [uploadToGPU_noop_of_texture_some s i td hlook (by simp [htex])]
    | none =>
        cases hval : td.values with
        | some v =>
            simp only [uploadToGPU, hlook, htex, hval]
            rw [assocGet_assocSet_ne _ _ _ _ (fun he => hx he.symm)]
        | none =>
            simp only [uploadToGPU, hlook, htex, hval]
            rw [assocGet_assocSet_ne _ _ _ _ (fun he => hx he.symm)]

/-- If the operand list contains an unregistered id, the in-order
residency upload aborts with the no-data error of the first unregistered
operand (an id that was unregistered already in the starting state). -/
theorem uploadAll_unregistered :
    ∀ (inputs : List Nat) (s : MathBackendWebGL) (d : Nat), d ∈ inputs →
      assocGet s.texData d = none →
      ∃ d', assocGet s.texData d' = none ∧
        (uploadAll inputs s).1 = Except.error (noDataMsg d') := by
  intro inputs
  induction inputs with
  | nil =>
      intro s d hd _
      simp at hd
  | cons i rest ih =>
      intro s d hd hnone
      cases hlook : assocGet s.texData i with
      | none =>
          refine ⟨i, hlook, ?_⟩
          have hup : uploadToGPU s i = (Except.error (noDataMsg i), s) := by
            simp only [uploadToGPU, hlook]
          simp only [uploadAll, hup]
      | some td =>
          have hdi : d ≠ i := by
            intro he
            rw [he, hlook] at hnone
            cases hnone
          have hdrest : d ∈ rest := by
            rcases List.mem_cons.mp hd with he | hm
            · exact absurd he hdi
            · exact hm
          rcases hu : uploadToGPU s i with ⟨r, s1⟩
          have hok : r = Except.ok () := by
            have hr := (uploadToGPU_registered s i td hlook).1
            rw [hu] at hr
            exact hr
          subst hok
          have hpres := uploadToGPU_preserves_none s i td hlook
          simp only [hu] at hpres
          obtain ⟨d', hd'1, herr⟩ := ih s1 d hdrest ((hpres d).mpr hnone)
          refine ⟨d', (hpres d').mp hd'1, ?_⟩
          simp only [uploadAll, hu]
          exact herr

/-- A `compileAndRun` dispatch with an explicitly supplied output and an
unregistered operand fails with the no-data error of the first
unregistered operand. -/
theorem compileAndRun_unregistered_input (s : MathBackendWebGL)
    (opKey : String) (inputs : List Nat) (o : Nat) (outShape : List Nat)
    (d : Nat) (hd : d ∈ inputs) (hnone : assocGet s.texData d = none) :
    ∃ d', assocGet s.texData d' = none ∧
      (compileAndRun s opKey inputs (some o) outShape).1 =
        Except.error (noDataMsg d') := by
  obtain ⟨d', h1, h2⟩ := uploadAll_unregistered inputs s d hd hnone
  refine ⟨d', h1, ?_⟩
  rcases hu : uploadAll inputs s with ⟨r, s1⟩
  rw [hu] at h2
  simp only at h2
  subst h2
  simp only [compileAndRun, hu]

end MathBackendWebGL

/-- C3 (amended): referencing an unregistered or disposed handle fails
with the no-data error whose message interpolates the handle id; the
single-handle entry points (write, readSync, read, getTexture, clone,
uploadToGPU) leave the backend state unchanged; an operation dispatched
through compileAndRun's residency upload also fails with the no-data
error of its first unregistered operand, though uploads of operands
processed before it persist. -/
theorem c3_no_data_error (s : MathBackendWebGL) (dataId : Nat)
    (hnone : assocGet s.texData dataId = none) :
    (∃ pre post,
       MathBackendWebGL.noDataMsg dataId = pre ++ Nat.repr dataId ++ post) ∧
    (∀ v, MathBackendWebGL.write s dataId (some v) =
       (Except.error (MathBackendWebGL.noDataMsg dataId), s)) ∧
    MathBackendWebGL.readSync s dataId =
      (Except.error (MathBackendWebGL.noDataMsg dataId), s) ∧
    (∀ asyncExt timerVersion,
       MathBackendWebGL.read s dataId asyncExt timerVersion =
         (Except.error (MathBackendWebGL.noDataMsg dataId), s)) ∧
    MathBackendWebGL.getTexture s dataId =
      (Except.error (MathBackendWebGL.noDataMsg dataId), s) ∧
    MathBackendWebGL.clone s dataId =
      (Except.error (MathBackendWebGL.noDataMsg dataId), s) ∧
    MathBackendWebGL.uploadToGPU s dataId =
      (Except.error (MathBackendWebGL.noDataMsg dataId), s) ∧
    (∀ opKey inputs o outShape, dataId ∈ inputs →
       ∃ d', assocGet s.texData d' = none ∧
         (MathBackendWebGL.compileAndRun s opKey inputs (some o) outShape).1 =
           Except.error (MathBackendWebGL.noDataMsg d')) := by
  have hup : MathBackendWebGL.uploadToGPU s dataId =
      (Except.error (MathBackendWebGL.noDataMsg dataId), s) := by
    simp only [MathBackendWebGL.uploadToGPU, hnone]
  refine ⟨⟨"No data found for NDArray with data id ", _, rfl⟩, ?_, ?_, ?_, ?_,
    ?_, hup, ?_⟩
  · intro v
    simp only [MathBackendWebGL.write, hnone]
  · simp only [MathBackendWebGL.readSync, hnone]
  · intro asyncExt timerVersion
    simp only [MathBackendWebGL.read, hnone]
  · simp only [MathBackendWebGL.getTexture, hup]
  · simp only [MathBackendWebGL.clone, hnone]
  · intro opKey inputs o outShape hmem
    exact MathBackendWebGL.compileAndRun_unregistered_input s opKey inputs o
      outShape dataId hmem hnone

/-- Concrete state for the C3 counterexample: ids 1 and 3 registered
(1 host-resident), id 2 never registered. -/
def s3cex : MathBackendWebGL :=
  { texData := [(1, td4w),
      (3, { shape := [3], dtype := .float32, values := none, texture := none,
            texShape := none, texType := .FLOAT })],
    binaryCache := [], nextBinary := 0,
    textureManager :=
      { pool := [], nextTex := 0, numAcquires := 0, numAllocs := 0,
        disposed := false },
    gpuData := [], delayedStorage := true, disposed := false,
    gpgpuCreatedLocally := true, gpgpuDisposed := false,
    deletedPrograms := [], nextDataId := 4 }

/-- Counterexample to C3 as stated: a two-operand dispatch whose second
operand was never registered throws the no-data error for id 2, but the
backend state is NOT unchanged — the first operand was uploaded before
the failure. -/
theorem c3_no_data_error_counterexample :
    (MathBackendWebGL.compileAndRun s3cex ("Concat") [1, 2] (some 3) []).1 =
      Except.error (MathBackendWebGL.noDataMsg 2) ∧
    (MathBackendWebGL.compileAndRun s3cex ("Concat") [1, 2] (some 3) []).2 ≠
      s3cex := by
  decide

/-- Witness for the amended C3: each single-handle entry point fails on
the unregistered id 2 with the interpolated no-data message, leaving the
concrete state unchanged. -/
theorem c3_no_data_error_witness :
    MathBackendWebGL.write s4w 2 (some [1]) =
      (Except.error (MathBackendWebGL.noDataMsg 2), s4w) ∧
    MathBackendWebGL.readSync s4w 2 =
      (Except.error (MathBackendWebGL.noDataMsg 2), s4w) ∧
    MathBackendWebGL.read s4w 2 false 0 =
      (Except.error (MathBackendWebGL.noDataMsg 2), s4w) ∧
    MathBackendWebGL.getTexture s4w 2 =
      (Except.error (MathBackendWebGL.noDataMsg 2), s4w) ∧
    MathBackendWebGL.clone s4w 2 =
      (Except.error (MathBackendWebGL.noDataMsg 2), s4w) ∧
    MathBackendWebGL.uploadToGPU s4w 2 =
      (Except.error (MathBackendWebGL.noDataMsg 2), s4w) := by
  have h := c3_no_data_error s4w 2 (by decide)
  exact ⟨h.2.1 [1], h.2.2.1, h.2.2.2.1 false 0, h.2.2.2.2.1, h.2.2.2.2.2.1,
    h.2.2.2.2.2.2.1⟩

namespace MathBackendWebGL

/-- C9's invariant: no residency record simultaneously holds non-null
host values and a non-null device texture. -/
def hostDeviceExclusive (s : MathBackendWebGL) : Bool :=
  s.texData.all fun p => p.2.values.isNone || p.2.texture.isNone

theorem hde_uploadToGPU (s : MathBackendWebGL) (dataId : Nat)
    (h : hostDeviceExclusive s = true) :
    hostDeviceExclusive ((uploadToGPU s dataId).2) = true := by
  cases hlook : assocGet s.texData dataId with
  | none =>
      simp only [uploadToGPU, hlook]
      exact h
  | some td =>
      cases htex : td.texture with
      | some t =>
          rw [uploadToGPU_noop_of_texture_some s dataId td hlook (by simp [htex])]
          exact h
      | none =>
          cases hval : td.values with
          | some v =>
              unfold hostDeviceExclusive at h ⊢
              simp only [uploadToGPU, hlook, htex, hval]
              exact all_assocSet _ _ _ _ h (by simp)
          | none =>
              unfold hostDeviceExclusive at h ⊢
              simp only [uploadToGPU, hlook, htex, hval]
              exact all_assocSet _ _ _ _ h (by simp [hval])

theorem hde_cacheOnCPU (s : MathBackendWebGL) (dataId : Nat)
    (fv : Option (List Int)) (hd : s.delayedStorage = true)
    (h : hostDeviceExclusive s = true) :
    hostDeviceExclusive (cacheOnCPU s dataId fv) = true := by
  cases hlook : assocGet s.texData dataId with
  | none =>
      simp only [cacheOnCPU, hlook]
      exact h
  | some td =>
      cases htex : td.texture with
      | some tex =>
          unfold hostDeviceExclusive at h ⊢
          simp only [cacheOnCPU, hlook, htex, hd, if_true]
          cases fv with
          | some fv0 => exact all_assocSet _ _ _ _ h (by simp)
          | none => exact all_assocSet _ _ _ _ h (by simp)
      | none =>
          unfold hostDeviceExclusive at h ⊢
          simp only [cacheOnCPU, hlook, htex, hd, if_true]
          cases fv with
          | some fv0 => exact all_assocSet _ _ _ _ h (by simp [htex])
          | none =>
              exact all_assocSet _ _ _ _ h
                (all_of_assocGet _ _ _ _ h hlook)

theorem hde_write (s : MathBackendWebGL) (dataId : Nat) (v : List Int)
    (hd : s.delayedStorage = true) (h : hostDeviceExclusive s = true) :
    hostDeviceExclusive ((write s dataId (some v)).2) = true := by
  cases hlook : assocGet s.texData dataId with
  | none =>
      simp only [write, hlook]
      exact h
  | some td =>
      cases htex : td.texture with
      | some tex =>
          unfold hostDeviceExclusive at h ⊢
          simp only [write, hlook, htex, hd, if_true]
          exact all_assocSet _ _ _ _ h (by simp)
      | none =>
          unfold hostDeviceExclusive at h ⊢
          simp only [write, hlook, htex, hd, if_true]
          exact all_assocSet _ _ _ _ h (by simp [htex])

theorem hde_register (s : MathBackendWebGL) (dataId : Nat) (shape : List Nat)
    (dt : DType) (h : hostDeviceExclusive s = true) :
    hostDeviceExclusive ((register s dataId shape dt).2) = true := by
  by_cases hr : (assocGet s.texData dataId).isSome
  · simp only [register, hr, if_pos]
    exact h
  · unfold hostDeviceExclusive at h ⊢
    simp only [register, hr]
    exact all_assocSet _ _ _ _ h (by simp)

theorem hde_readSync (s : MathBackendWebGL) (dataId : Nat)
    (hd : s.delayedStorage = true) (h : hostDeviceExclusive s = true) :
    hostDeviceExclusive ((readSync s dataId).2) = true := by
  cases hlook : assocGet s.texData dataId with
  | none =>
      simp only [readSync, hlook]
      exact h
  | some td =>
      cases hval : td.values with
      | some v =>
          simp only [readSync, hlook, hval]
          exact hde_cacheOnCPU s dataId none hd h
      | none =>
          simp only [readSync, hlook, hval]
          exact hde_cacheOnCPU s dataId _ hd h

theorem hde_read (s : MathBackendWebGL) (dataId : Nat) (asyncExt : Bool)
    (tv : Nat) (hd : s.delayedStorage = true)
    (h : hostDeviceExclusive s = true) :
    hostDeviceExclusive ((read s dataId asyncExt tv).2) = true := by
  cases hlook : assocGet s.texData dataId with
  | none =>
      simp only [read, hlook]
      exact h
  | some td =>
      cases hval : td.values with
      | some v =>
          simp only [read, hlook, hval]
          exact hde_cacheOnCPU s dataId none hd h
      | none =>
          cases asyncExt with
          | true =>
              simp only [read, hlook, hval, if_true]
              exact hde_cacheOnCPU s dataId _ hd h
          | false =>
              simp only [read, hlook, hval, Bool.false_eq_true, if_false]
              exact hde_readSync s dataId hd h

theorem hde_getTexture (s : MathBackendWebGL) (dataId : Nat)
    (h : hostDeviceExclusive s = true) :
    hostDeviceExclusive ((getTexture s dataId).2) = true := by
  have hup := hde_uploadToGPU s dataId h
  rcases hu : uploadToGPU s dataId with ⟨r, s1⟩
  rw [hu] at hup
  cases r with
  | error e => simp only [getTexture, hu]; exact hup
  | ok u => simp only [getTexture, hu]; exact hup

theorem hde_disposeData (s : MathBackendWebGL) (dataId : Nat)
    (h : hostDeviceExclusive s = true) :
    hostDeviceExclusive (disposeData s dataId) = true := by
  cases hlook : assocGet s.texData dataId with
  | none =>
      rw [disposeData_noop s dataId hlook]
      exact h
  | some td =>
      unfold hostDeviceExclusive at h ⊢
      simp only [disposeData, hlook]
      exact all_assocErase _ _ _ h

theorem getAndSaveBinary_texData (s : MathBackendWebGL) (key : String) :
    ((getAndSaveBinary s key).2).texData = s.texData := by
  cases hk : assocGet s.binaryCache key <;> simp [getAndSaveBinary, hk]

theorem hde_uploadAll (inputs : List Nat) :
    ∀ (s : MathBackendWebGL), hostDeviceExclusive s = true →
      hostDeviceExclusive ((uploadAll inputs s).2) = true := by
  induction inputs with
  | nil =>
      intro s h
      exact h
  | cons i rest ih =>
      intro s h
      have hup := hde_uploadToGPU s i h
      rcases hu : uploadToGPU s i with ⟨r, s1⟩
      rw [hu] at hup
      cases r with
      | error e =>
          simp only [uploadAll, hu]
          exact hup
      | ok u =>
          simp only [uploadAll, hu]
          exact ih s1 hup

theorem hde_compileAndRun (s : MathBackendWebGL) (opKey : String)
    (inputs : List Nat) (outputOpt : Option Nat) (outShape : List Nat)
    (h : hostDeviceExclusive s = true) :
    hostDeviceExclusive ((compileAndRun s opKey inputs outputOpt outShape).2) =
      true := by
  have hafter : ∀ (s0 : MathBackendWebGL) (outId : Nat),
      hostDeviceExclusive s0 = true →
      hostDeviceExclusive
        ((match uploadAll inputs s0 with
          | (.error e, s1) => (Except.error e, s1)
          | (.ok _, s1) =>
            match uploadToGPU s1 outId with
            | (.error e, s2) => (Except.error e, s2)
            | (.ok _, s2) =>
              (Except.ok outId,
               (getAndSaveBinary s2 (makeShaderKey s2 opKey inputs outId)).2)) :
          Except String Nat × MathBackendWebGL).2 = true := by
    intro s0 outId h0
    have h1 := hde_uploadAll inputs s0 h0
    rcases hu : uploadAll inputs s0 with ⟨r, s1⟩
    rw [hu] at h1
    cases r with
    | error e => exact h1
    | ok u =>
        dsimp only
        have h2 := hde_uploadToGPU s1 outId h1
        rcases hv : uploadToGPU s1 outId with ⟨r2, s2⟩
        rw [hv] at h2
        cases r2 with
        | error e => exact h2
        | ok u2 =>
            dsimp only
            unfold hostDeviceExclusive at h2 ⊢
            rw [getAndSaveBinary_texData]
            exact h2
  cases outputOpt with
  | some o =>
      simp only [compileAndRun]
      exact hafter s o h
  | none =>
      simp only [compileAndRun]
      refine hafter _ s.nextDataId ?_
      unfold hostDeviceExclusive at h ⊢
      exact all_assocSet _ _ _ _ h (by simp)

theorem hde_clone (s : MathBackendWebGL) (dataId : Nat)
    (h : hostDeviceExclusive s = true) :
    hostDeviceExclusive ((clone s dataId).2) = true := by
  cases hlook : assocGet s.texData dataId with
  | none =>
      simp only [clone, hlook]
      exact h
  | some td =>
      simp only [clone, hlook]
      have hup := hde_uploadToGPU s dataId h
      rcases hu : uploadToGPU s dataId with ⟨r, s1⟩
      rw [hu] at hup
      cases r with
      | error e => exact hup
      | ok u =>
          apply hde_compileAndRun
          unfold hostDeviceExclusive at hup ⊢
          exact all_assocSet _ _ _ _ hup (by simp)

theorem hde_dispose (s : MathBackendWebGL)
    (h : hostDeviceExclusive s = true) :
    hostDeviceExclusive (dispose s) = true := by
  by_cases hd : s.disposed <;> unfold hostDeviceExclusive at h ⊢ <;>
    simp only [dispose, hd, if_pos, if_neg, Bool.false_eq_true] <;>
    exact h

end MathBackendWebGL

/-- C9: in the default delayed-storage mode, every modelled operation
preserves the invariant that no residency record simultaneously holds
non-null host values and a non-null device texture: `uploadToGPU` nulls
the host values once uploaded, and the host-read paths release the
device texture before caching host values. -/
theorem c9_host_device_exclusive (s : MathBackendWebGL)
    (hd : s.delayedStorage = true)
    (hinv : MathBackendWebGL.hostDeviceExclusive s = true)
    (dataId : Nat) (shape : List Nat) (dt : DType) (v : List Int)
    (fv : Option (List Int)) (asyncExt : Bool) (tv : Nat) (opKey : String)
    (inputs : List Nat) (outputOpt : Option Nat) (outShape : List Nat) :
    MathBackendWebGL.hostDeviceExclusive
      ((MathBackendWebGL.register s dataId shape dt).2) = true ∧
    MathBackendWebGL.hostDeviceExclusive
      ((MathBackendWebGL.write s dataId (some v)).2) = true ∧
    MathBackendWebGL.hostDeviceExclusive
      ((MathBackendWebGL.readSync s dataId).2) = true ∧
    MathBackendWebGL.hostDeviceExclusive
      ((MathBackendWebGL.read s dataId asyncExt tv).2) = true ∧
    MathBackendWebGL.hostDeviceExclusive
      ((MathBackendWebGL.getTexture s dataId).2) = true ∧
    MathBackendWebGL.hostDeviceExclusive
      ((MathBackendWebGL.uploadToGPU s dataId).2) = true ∧
    MathBackendWebGL.hostDeviceExclusive
      (MathBackendWebGL.cacheOnCPU s dataId fv) = true ∧
    MathBackendWebGL.hostDeviceExclusive
      (MathBackendWebGL.disposeData s dataId) = true ∧
    MathBackendWebGL.hostDeviceExclusive
      ((MathBackendWebGL.compileAndRun s opKey inputs outputOpt outShape).2) =
      true ∧
    MathBackendWebGL.hostDeviceExclusive
      ((MathBackendWebGL.clone s dataId).2) = true ∧
    MathBackendWebGL.hostDeviceExclusive (MathBackendWebGL.dispose s) = true :=
  ⟨MathBackendWebGL.hde_register s dataId shape dt hinv,
   MathBackendWebGL.hde_write s dataId v hd hinv,
   MathBackendWebGL.hde_readSync s dataId hd hinv,
   MathBackendWebGL.hde_read s dataId asyncExt tv hd hinv,
   MathBackendWebGL.hde_getTexture s dataId hinv,
   MathBackendWebGL.hde_uploadToGPU s dataId hinv,
   MathBackendWebGL.hde_cacheOnCPU s dataId fv hd hinv,
   MathBackendWebGL.hde_disposeData s dataId hinv,
   MathBackendWebGL.hde_compileAndRun s opKey inputs outputOpt outShape hinv,
   MathBackendWebGL.hde_clone s dataId hinv,
   MathBackendWebGL.hde_dispose s hinv⟩

/-- Witness for C9 on a concrete host-resident state: a write, a read, an
upload and a full dispatch all keep the invariant. -/
theorem c9_host_device_exclusive_witness :
    MathBackendWebGL.hostDeviceExclusive
      ((MathBackendWebGL.write s4w 1 (some [7])).2) = true ∧
    MathBackendWebGL.hostDeviceExclusive
      ((MathBackendWebGL.readSync s4w 1).2) = true ∧
    MathBackendWebGL.hostDeviceExclusive
      ((MathBackendWebGL.uploadToGPU s4w 1).2) = true ∧
    MathBackendWebGL.hostDeviceExclusive
      ((MathBackendWebGL.compileAndRun s4w ("Neg") [1] none [3]).2) = true := by
  have h := c9_host_device_exclusive s4w (by decide) (by decide) 1 [3]
    DType.float32 [7] none false 0 ("Neg") [1] none [3]
  exact ⟨h.2.1, h.2.2.1, h.2.2.2.2.2.1, h.2.2.2.2.2.2.2.2.1⟩
